import Mathlib

/-!
Verification development for the QMC parameter-file builder and report parser
(`utils/ioscripts.py`).  The Python functions are shallowly embedded:

* strings are `List Char` (a report file is a `List (List Char)` of lines, as
  produced by `readlines`);
* the shared regular expression `[-+]?\d*\.?\d+(?:[eE][-+]?\d+)?|nan` together
  with `re.findall` is embedded as the executable matcher `matchTok` and the
  scanner `findall` below, reproducing leftmost scanning, greedy matching with
  backtracking, and first-alternative priority;
* Python's dynamic values are embedded as `PyVal` (`str` vs `float`); the IEEE
  `float(token)` coercion is modelled by the exact rational value of the token
  (`tokToFloat`), which is faithful for every comparison made here because all
  compared tokens are syntactically equal strings;
* fallible indexing (`lines[i]`, `re.findall(p, l)[0]`) is embedded in the
  `Option` monad: `none` is Python's raised `IndexError` (out-of-range /
  no-match), so a `none` result is the all-or-nothing failure of a parse call;
* the `fidsus` / `save` / `restart` arguments, which the source compares with
  `is True` (identity) or `== True` (equality), are embedded as `PyArg` with
  the two distinct tests `pyIsTrue` and `pyEqTrue`.
-/

/-- `\d` of the pattern: decimal digit. -/
def isDig (c : Char) : Bool := '0' ≤ c && c ≤ '9'

/-- `[-+]` of the pattern. -/
def isSignChar (c : Char) : Bool := c = '-' || c = '+'

/-- Greedy `\d*` / `\d+`: split off the maximal run of leading digits. -/
def takeDigits : List Char → List Char × List Char
  | [] => ([], [])
  | c :: cs =>
    if isDig c then
      let p := takeDigits cs
      (c :: p.1, p.2)
    else ([], c :: cs)

/-- The optional exponent group `(?:[eE][-+]?\d+)?` of the pattern: returns the
matched exponent text (possibly `[]`) and the remaining input. -/
def expPart : List Char → List Char × List Char
  | [] => ([], [])
  | c :: rest =>
    if c = 'e' ∨ c = 'E' then
      match rest with
      | [] => ([], c :: rest)
      | c2 :: rest2 =>
        if isSignChar c2 then
          let p := takeDigits rest2
          if p.1.isEmpty then ([], c :: rest) else (c :: c2 :: p.1, p.2)
        else
          let p := takeDigits rest
          if p.1.isEmpty then ([], c :: rest) else (c :: p.1, p.2)
    else ([], c :: rest)

/-- The optional leading sign `[-+]?`: split it off when present. -/
def signSplit (s : List Char) : List Char × List Char :=
  match s with
  | c :: cs => if isSignChar c then ([c], cs) else ([], c :: cs)
  | [] => ([], [])

/-- The mantissa `\d*\.?\d+` with the regex engine's greedy backtracking: a
digit run, then a dot followed by a digit run if both are present; a bare
digit run otherwise (the engine gives the dot back when no digit follows it);
fails when no digit is available. -/
def mantissa (s : List Char) : Option (List Char × List Char) :=
  let d := takeDigits s
  match d.2 with
  | '.' :: s3 =>
    let d2 := takeDigits s3
    if d2.1.isEmpty then
      if d.1.isEmpty then none else some (d.1, d.2)
    else some (d.1 ++ '.' :: d2.1, d2.2)
  | _ => if d.1.isEmpty then none else some (d.1, d.2)

/-- The first alternative `[-+]?\d*\.?\d+(?:[eE][-+]?\d+)?` of the pattern,
anchored at the head of the input, with the regex engine's greedy backtracking
semantics.  Returns `some (match, rest)` or `none`. -/
def matchNum (s : List Char) : Option (List Char × List Char) :=
  let sp := signSplit s
  match mantissa sp.2 with
  | none => none
  | some (m, r) =>
    let e := expPart r
    some (sp.1 ++ m ++ e.1, e.2)

/-- The full pattern `[-+]?\d*\.?\d+(?:[eE][-+]?\d+)?|nan` anchored at the head
of the input; the second alternative `nan` is tried only if the first fails,
as the regex engine does. -/
def matchTok (s : List Char) : Option (List Char × List Char) :=
  match matchNum s with
  | some mr => some mr
  | none =>
    match s with
    | 'n' :: 'a' :: 'n' :: r => some (['n', 'a', 'n'], r)
    | _ => none

/-- Fuel-indexed scanner: try a match at each position, emit it and resume
after it (the pattern never matches the empty string, so `re.findall`'s
empty-match bump never fires).  Fuel `s.length` always suffices. -/
def findallAux : Nat → List Char → List (List Char)
  | 0, _ => []
  | _ + 1, [] => []
  | n + 1, c :: rest =>
    match matchTok (c :: rest) with
    | some (m, r) => m :: findallAux n r
    | none => findallAux n rest

/-- Embedding of `re.findall(p, line)` for the shared numeric pattern `p`:
the ordered list of non-overlapping leftmost matches. -/
def findall (s : List Char) : List (List Char) := findallAux s.length s

/-- `v` is a complete numeric token: the pattern matches `v` in full.  This
holds for the `str()` rendering of every finite Python `int` and `float`. -/
def isNumTok (v : List Char) : Bool :=
  match matchTok v with
  | some (_, r) => r.isEmpty
  | none => false

/-- A character that cannot extend a match to its left: not a digit, sign,
dot, or exponent letter.  Appending `c :: t` after a complete match leaves
the match unchanged. -/
def extSafe (c : Char) : Bool :=
  !(isDig c) && !(isSignChar c) && !(c == '.') && !(c == 'e') && !(c == 'E')

/-- A character at which no match can start: not a digit, sign, dot, or `'n'`
(the head of `nan`). -/
def safeChar (c : Char) : Bool :=
  !(isDig c) && !(isSignChar c) && !(c == '.') && !(c == 'n')

/-- A prefix inside which no match of the pattern can start, whatever follows
it: every character is `safeChar`, except that `'n'` is allowed when the next
character (still inside the prefix) is not `'a'`. -/
def noStart : List Char → Bool
  | [] => true
  | c :: rest =>
    (safeChar c
      || (c == 'n' && match rest with | c2 :: _ => !(c2 == 'a') | [] => false))
    && noStart rest

/-- Numeric value of a digit run (most significant first). -/
def digitsVal (ds : List Char) : Nat := ds.foldl (fun a c => 10 * a + (c.toNat - 48)) 0

/-- Embedding of a Python `float`: a finite value (modelled by its exact
rational value) or the IEEE `nan` produced by `float("nan")`. -/
inductive PyFloat where
  | num (q : ℚ)
  | nan
deriving DecidableEq

/-- Exact value of a finite numeric token (sign, integer part, optional
fractional part, optional exponent).  Models Python's `float(token)` for the
tokens produced by the shared pattern. -/
def ratOfTok (t : List Char) : ℚ :=
  let sp : ℚ × List Char :=
    match t with
    | '-' :: r => (-1, r)
    | '+' :: r => (1, r)
    | _ => (1, t)
  let d := takeDigits sp.2
  let fr : ℚ × List Char :=
    match d.2 with
    | '.' :: r =>
      let d2 := takeDigits r
      ((digitsVal d2.1 : ℚ) / (10 : ℚ) ^ d2.1.length, d2.2)
    | _ => (0, d.2)
  let ex : Int :=
    match fr.2 with
    | 'e' :: r | 'E' :: r =>
      match r with
      | '-' :: r2 => -(digitsVal (takeDigits r2).1 : Int)
      | '+' :: r2 => (digitsVal (takeDigits r2).1 : Int)
      | _ => (digitsVal (takeDigits r).1 : Int)
    | _ => 0
  sp.1 * ((digitsVal d.1 : ℚ) + fr.1) * (10 : ℚ) ^ ex

/-- Embedding of Python's `float(token)` coercion applied to a token matched
by the shared pattern: `"nan"` yields NaN, everything else a finite value. -/
def tokToFloat (t : List Char) : PyFloat :=
  if t = "nan".data then PyFloat.nan else PyFloat.num (ratOfTok t)

/-- A Python runtime value as returned by the parsers: either a `str` (the
raw token text) or a `float` (a coerced number).  The distinction carries the
source's textual-vs-numeric asymmetry. -/
inductive PyVal where
  | s (t : List Char)
  | f (v : PyFloat)
deriving DecidableEq

/-- `true` iff the value is a Python `str`. -/
def PyVal.isStr : PyVal → Bool
  | .s _ => true
  | .f _ => false

/-- `true` iff the value is a Python `float`. -/
def PyVal.isFloat : PyVal → Bool
  | .s _ => false
  | .f _ => true

/-- A Python value passed for the boolean-ish keyword arguments (`fidsus`,
`save`, `restart`): the literal `True`, the literal `False`, or an `int`. -/
inductive PyArg where
  | pyTrue
  | pyFalse
  | pyInt (n : Int)
deriving DecidableEq

/-- Python's identity test `x is True`: only the literal `True` passes
(`1 is True` is `False`). -/
def pyIsTrue : PyArg → Bool
  | .pyTrue => true
  | _ => false

/-- Python's equality test `x == True`: the literal `True` passes, and so does
the integer `1` (because `bool` is an `int` subclass and `True == 1`). -/
def pyEqTrue : PyArg → Bool
  | .pyTrue => true
  | .pyInt 1 => true
  | _ => false

/-- Decimal digits of `n`, most significant first (fuel-indexed helper). -/
def natStrAux : Nat → Nat → List Char
  | 0, _ => []
  | fuel + 1, n =>
    if n < 10 then [Nat.digitChar n]
    else natStrAux fuel (n / 10) ++ [Nat.digitChar (n % 10)]

/-- Decimal rendering of a natural number: models Python's `str(int)` as
interpolated by the builders' f-string. -/
def natStr (n : Nat) : List Char := natStrAux (n + 1) n

/-- A C-identifier character, as used in the generated `#define` macro names. -/
def identChar (c : Char) : Bool :=
  ('A' ≤ c && c ≤ 'Z') || ('a' ≤ c && c ≤ 'z') || isDig c || c = '_'

/-- Maximal identifier runs of a character list (`cur` holds the reversed
current run). -/
def identRunsAux : List Char → List Char → List (List Char)
  | cur, [] => if cur.isEmpty then [] else [cur.reverse]
  | cur, c :: rest =>
    if identChar c then identRunsAux (c :: cur) rest
    else if cur.isEmpty then identRunsAux [] rest
    else cur.reverse :: identRunsAux [] rest

/-- Maximal identifier runs of a character list, in order. -/
def identRuns (s : List Char) : List (List Char) := identRunsAux [] s

/-- The instrument-declaration tokens of a generated parameter file: every
maximal identifier run that begins with `MEASURE`. -/
def instruments (s : List Char) : List (List Char) :=
  (identRuns s).filter (fun r => "MEASURE".data.isPrefixOf r)

/-!  ## Config builder (embedding of the `make_*_param_fstr` family)

Numeric parameters `beta` and `tau` are embedded as the text Python's
f-string interpolation renders for them (`str(float)`); the integer
parameters keep their `Nat` value and are rendered with `natStr`.  -/

/-- The static documentation/citation text at the top of every parameter file
(the first triple-quoted literal of `make_param_file_header`). -/
def headerDoc : String :=
  "\n//\n// This program implements Permutation Matrix Representation Quantum Monte Carlo for arbitrary spin-1/2 Hamiltonians.\n//\n// This program is introduced in the paper:\n// Lev Barash, Arman Babakhani, Itay Hen, A quantum Monte Carlo algorithm for arbitrary spin-1/2 Hamiltonians, Physical Review Research 6, 013281 (2024).\n//\n// Various advanced measurement capabilities were added as part of the\n// work introduced in the papers:\n// * Nic Ezzell, Lev Barash, Itay Hen, Exact and universal quantum Monte Carlo estimators for energy susceptibility and fidelity susceptibility, arXiv:2408.03924 (2024).\n// * Nic Ezzell and Itay Hen, Advanced measurement techniques in quantum Monte Carlo: The permutation matrix representation approach, arXiv:2504.07295 (2025).\n//\n// This program is licensed under a Creative Commons Attribution 4.0 International License:\n// http://creativecommons.org/licenses/by/4.0/\n//\n// ExExFloat datatype and calculation of divided differences are described in the paper:\n// L. Gupta, L. Barash, I. Hen, Calculating the divided differences of the exponential function by addition and removal of inputs, Computer Physics Communications 254, 107385 (2020)\n//\n\n//\n// Below are the parameter values:\n//\n    "

/-- The `#define Tsteps {Tsteps} // ...` line of the header f-string. -/
def tstepsLine (v : List Char) : List Char :=
  "#define Tsteps ".data ++ v ++ " // number of Monte-Carlo initial equilibration updates".data

/-- The `#define steps {steps} // ...` line of the header f-string. -/
def stepsLine (v : List Char) : List Char :=
  "#define steps ".data ++ v ++ " // number of Monte-Carlo updates".data

/-- The `#define stepsPerMeasurement {stepsPerMeasurement} // ...` line. -/
def spmLine (v : List Char) : List Char :=
  "#define stepsPerMeasurement ".data ++ v ++ " // number of Monte-Carlo updates per measurement".data

/-- The `#define beta {beta} // ...` line of the header f-string. -/
def betaLine (v : List Char) : List Char :=
  "#define beta ".data ++ v ++ " // inverse temperature".data

/-- The `#define tau {tau} //...` line of the header f-string. -/
def tauLine (v : List Char) : List Char :=
  "#define tau ".data ++ v ++ " //imaginary propogation time".data

/-- The `#define parity_cond {parity} // ...` line (note the trailing space,
as in the source). -/
def parityLine (v : List Char) : List Char :=
  "#define parity_cond ".data ++ v ++ " // controls parity subspace measurement ".data

/-- The six interpolated `#define` lines of the header, in the source's fixed
order: `Tsteps, steps, stepsPerMeasurement, beta, tau, parity_cond`. -/
def headerDefLines (Tsteps steps stepsPerMeasurement beta tau parity : List Char) :
    List (List Char) :=
  [tstepsLine Tsteps, stepsLine steps, spmLine stepsPerMeasurement,
   betaLine beta, tauLine tau, parityLine parity]

/-- Embedding of `make_param_file_header`: static documentation followed by
the interpolated `#define` block (each argument is the interpolated text of
the corresponding Python value). -/
def make_param_file_header (beta tau Tsteps steps stepsPerMeasurement parity : List Char) :
    List Char :=
  headerDoc.data ++ "\n".data
    ++ tstepsLine Tsteps ++ "\n".data
    ++ stepsLine steps ++ "\n".data
    ++ spmLine stepsPerMeasurement ++ "\n".data
    ++ betaLine beta ++ "\n".data
    ++ tauLine tau ++ "\n".data
    ++ parityLine parity ++ "\n".data

/-- The static implementation-parameters block of `make_param_file_footer`. -/
def footerBase : String :=
  "\n//\n// Below are the implementation parameters:\n//\n\n#define qmax     1000                // upper bound for the maximal length of the sequence of permutation operators\n#define Nbins    250                 // number of bins for the error estimation via binning analysis\n#define EXHAUSTIVE_CYCLE_SEARCH      // comment this line for a more restrictive cycle search\n#define GAPS_GEOMETRIC_PARAMETER 0.8 // parameter of geometric distribution for the length of gaps in the cycle completion update\n#define COMPOSITE_UPDATE_BREAK_PROBABILITY  0.9   // exit composite update at each step with this probability\n\n// #define ABS_WEIGHTS                  // uncomment this line to employ absolute values of weights rather than real parts of weights\n// #define EXACTLY_REPRODUCIBLE         // uncomment this to always employ the same RNG seeds and reproduce exactly the same results\n\n//\n// Uncomment or comment the macros below to enable or disable the ability to checkpoint and restart\n//\n"

/-- The block appended when `save == True`. -/
def saveBlock : String :=
  "\n#define SAVE_COMPLETED_CALCULATION   // save detailed data to \"qmc_data_*.dat\" when calculaiton is completed\n#define SAVE_UNFINISHED_CALCULATION  // save calculation state to the files \"qmc_data_*.dat\" prior to exiting when SIGTERM signal is detected\n#define HURRY_ON_SIGTERM             // uncomment this line to break composite update on SIGTERM signal to speed up the process\n    "

/-- The block appended when `restart == True`. -/
def restartBlock : String :=
  "\n#define RESUME_CALCULATION           // attempt to read data from \"qmc_data_*.dat\" to resume the previous calculation\n        "

/-- Embedding of `make_param_file_footer` (the source tests `save == True`
and `restart == True`, i.e. by equality). -/
def make_param_file_footer (save restart : PyArg) : List Char :=
  footerBase.data
    ++ (if pyEqTrue save then saveBlock.data else [])
    ++ (if pyEqTrue restart then restartBlock.data else [])

/-- Default equilibration-step count of `make_no_stand_param_fstr`. -/
def no_stand_Tsteps_default : Nat := 100000

/-- Default equilibration-step count of `make_hdiag_susceptibility_param_fstr`. -/
def hdiag_Tsteps_default : Nat := 100000

/-- Default equilibration-step count of `make_hoffdiag_susceptibility_param_fstr`. -/
def hoffdiag_Tsteps_default : Nat := 100000

/-- Default equilibration-step count of `make_all_stand_param_fstr`. -/
def all_stand_Tsteps_default : Nat := 10000000

/-- Embedding of `make_no_stand_param_fstr`: header + footer, no observables. -/
def make_no_stand_param_fstr (beta tau : List Char)
    (Tsteps : Nat := no_stand_Tsteps_default) (steps : Nat := 1000000)
    (stepsPerMeasurement : Nat := 10) (parity : Nat := 0)
    (save : PyArg := .pyTrue) (restart : PyArg := .pyFalse) : List Char :=
  make_param_file_header beta tau (natStr Tsteps) (natStr steps)
      (natStr stepsPerMeasurement) (natStr parity)
    ++ make_param_file_footer save restart

/-- The hdiag body block (between header and the conditional FINT line). -/
def hdiagBody : String :=
  "\n//\n// Below is the list of standard observables:\n//\n\n#define MEASURE_HDIAG                // <H_\x7bdiag\x7d>      is measured when this line is not commented\n#define MEASURE_HDIAG_EINT\n\n"

/-- Embedding of `make_hdiag_susceptibility_param_fstr`: `tau` is forced to
`0.0`, and the FINT line is appended only when `fidsus is True` (identity). -/
def make_hdiag_susceptibility_param_fstr (beta : List Char)
    (fidsus : PyArg := .pyTrue)
    (Tsteps : Nat := hdiag_Tsteps_default) (steps : Nat := 1000000)
    (stepsPerMeasurement : Nat := 10) (parity : Nat := 0)
    (save : PyArg := .pyTrue) (restart : PyArg := .pyFalse) : List Char :=
  make_param_file_header beta "0.0".data (natStr Tsteps) (natStr steps)
      (natStr stepsPerMeasurement) (natStr parity)
    ++ hdiagBody.data
    ++ (if pyIsTrue fidsus then "#define MEASURE_HDIAG_FINT\n".data else [])
    ++ make_param_file_footer save restart

/-- The hoffdiag body block (the source's comment text repeats `H_{diag}`). -/
def hoffdiagBody : String :=
  "\n//\n// Below is the list of standard observables:\n//\n\n#define MEASURE_HOFFDIAG                // <H_\x7bdiag\x7d>      is measured when this line is not commented\n#define MEASURE_HOFFDIAG_EINT\n\n"

/-- Embedding of `make_hoffdiag_susceptibility_param_fstr`. -/
def make_hoffdiag_susceptibility_param_fstr (beta : List Char)
    (fidsus : PyArg := .pyTrue)
    (Tsteps : Nat := hoffdiag_Tsteps_default) (steps : Nat := 1000000)
    (stepsPerMeasurement : Nat := 10) (parity : Nat := 0)
    (save : PyArg := .pyTrue) (restart : PyArg := .pyFalse) : List Char :=
  make_param_file_header beta "0.0".data (natStr Tsteps) (natStr steps)
      (natStr stepsPerMeasurement) (natStr parity)
    ++ hoffdiagBody.data
    ++ (if pyIsTrue fidsus then "#define MEASURE_HOFFDIAG_FINT\n".data else [])
    ++ make_param_file_footer save restart

/-- The fixed all-standard-observables body block. -/
def allStandBody : String :=
  "\n//\n// Below is the list of standard observables:\n//\n\n#define MEASURE_H                    // <H>             is measured when this line is not commented\n#define MEASURE_H2                   // <H^2>           is measured when this line is not commented\n#define MEASURE_HDIAG                // <H_\x7bdiag\x7d>      is measured when this line is not commented\n#define MEASURE_HDIAG2               // <H_\x7bdiag\x7d^2>    is measured when this line is not commented\n#define MEASURE_HOFFDIAG             // <H_\x7boffdiag\x7d>   is measured when this line is not commented\n#define MEASURE_HOFFDIAG2            // <H_\x7boffdiag\x7d^2> is measured when this line is not commented\n#define MEASURE_Z_MAGNETIZATION      // Z-magnetization is measured when this line is not commented\n#define MEASURE_HDIAG_CORR\n#define MEASURE_HDIAG_EINT\n#define MEASURE_HDIAG_FINT\n#define MEASURE_HOFFDIAG_CORR\n#define MEASURE_HOFFDIAG_EINT\n#define MEASURE_HOFFDIAG_FINT\n"

/-- Embedding of `make_all_stand_param_fstr`: header + fixed body + footer. -/
def make_all_stand_param_fstr (beta tau : List Char)
    (Tsteps : Nat := all_stand_Tsteps_default) (steps : Nat := 1000000)
    (stepsPerMeasurement : Nat := 10) (parity : Nat := 0)
    (save : PyArg := .pyTrue) (restart : PyArg := .pyFalse) : List Char :=
  make_param_file_header beta tau (natStr Tsteps) (natStr steps)
      (natStr stepsPerMeasurement) (natStr parity)
    ++ allStandBody.data
    ++ make_param_file_footer save restart

/-!  ## Report parser (embedding of the `parse_*_temp` family) -/

/-- `re.findall(p, lines[i])[0]`: the first numeric token of line `i`, or
`none` when the line is missing (index out of range) or holds no token. -/
def firstTok (lines : List (List Char)) (i : Nat) : Option (List Char) :=
  (lines.get? i).bind (fun l => (findall l).head?)

/-- One iteration of the result-group loop: estimate from line `6 + 3*j - 2`,
standard error from the following line. -/
def readGroup (lines : List (List Char)) (j : Nat) : Option (List Char × List Char) := do
  let a ← firstTok lines (6 + 3 * j - 2)
  let b ← firstTok lines (6 + 3 * j - 1)
  pure (a, b)

/-- The result-group loop `for j in range(...)`: collects the estimate and
standard-error token lists (the source appends to two lists in the same
order). -/
def readGroups (lines : List (List Char)) : List Nat →
    Option (List (List Char) × List (List Char))
  | [] => some ([], [])
  | j :: js => do
    let (a, b) ← readGroup lines j
    let (as, bs) ← readGroups lines js
    pure (a :: as, b :: bs)

/-- The 4-tuple returned by each parser, in the source's component order
`(emergent, value array, std array, time)`; `vals`/`stds` embed
`otxt_array`/`otxt_std` (full-standard) and `obs_array`/`obs_std`
(susceptibility and correlator). -/
structure ParseResult where
  emergent : List PyVal
  vals : List PyVal
  stds : List PyVal
  time : PyVal
deriving DecidableEq

/-- Embedding of `parse_otxt_temp` on the line list of the report file:
emergent block from lines 2-5 (kept as text), six result groups coerced with
`float`, duration token from line `6 + 3*6` (kept as text). -/
def parse_otxt_temp (lines : List (List Char)) : Option ParseResult := do
  let sign ← firstTok lines 2
  let sign_std ← firstTok lines 3
  let mean_q ← firstTok lines 4
  let max_q ← firstTok lines 5
  let (otxt_array, otxt_std) ← readGroups lines (List.range' 1 6)
  let time ← firstTok lines (6 + 3 * 6)
  pure ⟨[PyVal.s sign, PyVal.s sign_std, PyVal.s mean_q, PyVal.s max_q],
        otxt_array.map (fun x => PyVal.f (tokToFloat x)),
        otxt_std.map (fun x => PyVal.f (tokToFloat x)),
        PyVal.s time⟩

/-- `max_idx = 4 if fidsus == True else 3` of `parse_susceptibility_temp`
(an equality test, not an identity test). -/
def susMaxIdx (fidsus : PyArg) : Nat := if pyEqTrue fidsus then 4 else 3

/-- Embedding of `parse_susceptibility_temp`: emergent block from lines 2-5,
`max_idx - 1` result groups and the duration token, all kept as text. -/
def parse_susceptibility_temp (lines : List (List Char))
    (fidsus : PyArg := .pyTrue) : Option ParseResult := do
  let sign ← firstTok lines 2
  let sign_std ← firstTok lines 3
  let mean_q ← firstTok lines 4
  let max_q ← firstTok lines 5
  let (obs_array, obs_std) ← readGroups lines (List.range' 1 (susMaxIdx fidsus - 1))
  let time ← firstTok lines (6 + 3 * (susMaxIdx fidsus - 1))
  pure ⟨[PyVal.s sign, PyVal.s sign_std, PyVal.s mean_q, PyVal.s max_q],
        obs_array.map PyVal.s, obs_std.map PyVal.s, PyVal.s time⟩

/-- Embedding of `parse_correlator_temp`: emergent block from lines 2-5, two
result groups and the duration token from line `6 + 3*2`, all kept as text. -/
def parse_correlator_temp (lines : List (List Char)) : Option ParseResult := do
  let sign ← firstTok lines 2
  let sign_std ← firstTok lines 3
  let mean_q ← firstTok lines 4
  let max_q ← firstTok lines 5
  let (obs_array, obs_std) ← readGroups lines (List.range' 1 2)
  let time ← firstTok lines (6 + 3 * 2)
  pure ⟨[PyVal.s sign, PyVal.s sign_std, PyVal.s mean_q, PyVal.s max_q],
        obs_array.map PyVal.s, obs_std.map PyVal.s, PyVal.s time⟩

/-- The line offsets `parse_otxt_temp` reads: 2-5 (emergent), the six
`(estimate, std)` pairs, and 24 (duration). -/
def otxtOffsets : List Nat := [2, 3, 4, 5, 7, 8, 10, 11, 13, 14, 16, 17, 19, 20, 22, 23, 24]

/-- The line offsets `parse_susceptibility_temp` reads for a given `fidsus`. -/
def susOffsets (fidsus : PyArg) : List Nat :=
  if pyEqTrue fidsus then [2, 3, 4, 5, 7, 8, 10, 11, 13, 14, 15]
  else [2, 3, 4, 5, 7, 8, 10, 11, 12]

/-- The line offsets `parse_correlator_temp` reads. -/
def corrOffsets : List Nat := [2, 3, 4, 5, 7, 8, 10, 11, 12]

/-- A synthetic well-formed full-standard report (25 lines): 2-line header,
emergent block, six result groups with label lines, duration on line 24.
Line 21 (a label slot the parser never reads) is given a numeric token to
discriminate offset formulas. -/
def reportA : List (List Char) :=
  ["x".data, "y".data, "0.98".data, "0.01".data, "1.5".data, "2.0".data,
   "a".data, "1.1".data, "0.1".data, "b".data, "2.2".data, "0.2".data,
   "c".data, "3.3".data, "0.3".data, "d".data, "4.4".data, "0.4".data,
   "q".data, "5.5".data, "0.5".data, "111".data, "6.6".data, "0.6".data,
   "999".data]

/-- A synthetic susceptibility report with the fidelity-susceptibility group
included (16 lines, duration on line 15). -/
def reportB : List (List Char) :=
  ["x".data, "y".data, "0.98".data, "0.01".data, "1.5".data, "2.0".data,
   "a".data, "1.1".data, "0.1".data, "b".data, "2.2".data, "0.2".data,
   "c".data, "3.3".data, "0.3".data, "777".data]

/-- A synthetic correlator report (13 lines, duration on line 12). -/
def reportC : List (List Char) :=
  ["x".data, "y".data, "0.98".data, "0.01".data, "1.5".data, "2.0".data,
   "a".data, "1.1".data, "0.1".data, "b".data, "2.2".data, "0.2".data,
   "555".data]

/-- The record `parse_otxt_temp` returns on `reportA` (used to instantiate
the general theorems at a concrete input). -/
def reportAResult : ParseResult :=
  ⟨[PyVal.s "0.98".data, PyVal.s "0.01".data, PyVal.s "1.5".data, PyVal.s "2.0".data],
   (["1.1".data, "2.2".data, "3.3".data, "4.4".data, "5.5".data, "6.6".data]).map
     (fun x => PyVal.f (tokToFloat x)),
   (["0.1".data, "0.2".data, "0.3".data, "0.4".data, "0.5".data, "0.6".data]).map
     (fun x => PyVal.f (tokToFloat x)),
   PyVal.s "999".data⟩

/-- The record `parse_susceptibility_temp` returns on `reportB` with
`fidsus = True`. -/
def reportBResult : ParseResult :=
  ⟨[PyVal.s "0.98".data, PyVal.s "0.01".data, PyVal.s "1.5".data, PyVal.s "2.0".data],
   (["1.1".data, "2.2".data, "3.3".data]).map PyVal.s,
   (["0.1".data, "0.2".data, "0.3".data]).map PyVal.s,
   PyVal.s "777".data⟩

/-- The record `parse_correlator_temp` returns on `reportC`. -/
def reportCResult : ParseResult :=
  ⟨[PyVal.s "0.98".data, PyVal.s "0.01".data, PyVal.s "1.5".data, PyVal.s "2.0".data],
   (["1.1".data, "2.2".data]).map PyVal.s,
   (["0.1".data, "0.2".data]).map PyVal.s,
   PyVal.s "555".data⟩

/-- The 13 instrument-declaration tokens of the all-standard-observables body,
in the order they appear. -/
def allStandInstruments : List (List Char) :=
  ["MEASURE_H".data, "MEASURE_H2".data, "MEASURE_HDIAG".data, "MEASURE_HDIAG2".data,
   "MEASURE_HOFFDIAG".data, "MEASURE_HOFFDIAG2".data, "MEASURE_Z_MAGNETIZATION".data,
   "MEASURE_HDIAG_CORR".data, "MEASURE_HDIAG_EINT".data, "MEASURE_HDIAG_FINT".data,
   "MEASURE_HOFFDIAG_CORR".data, "MEASURE_HOFFDIAG_EINT".data, "MEASURE_HOFFDIAG_FINT".data]

/-! ## Lemmas: the token matcher consumes what it matches -/

theorem takeDigits_eq : ∀ s : List Char, s = (takeDigits s).1 ++ (takeDigits s).2 := by
  intro s
  induction s with
  | nil => rfl
  | cons c cs ih =>
    unfold takeDigits
    by_cases h : isDig c
    · simpa [h] using ih
    · simp [h]

theorem takeDigits_append {c : Char} (hc : isDig c = false) :
    ∀ s t : List Char,
      takeDigits (s ++ c :: t) = ((takeDigits s).1, (takeDigits s).2 ++ c :: t) := by
  intro s t
  induction s with
  | nil => simp [takeDigits, hc]
  | cons a as ih =>
    by_cases h : isDig a
    · simp [takeDigits, h, ih]
    · simp [takeDigits, h]

theorem signSplit_eq : ∀ s : List Char, s = (signSplit s).1 ++ (signSplit s).2 := by
  intro s
  cases s with
  | nil => rfl
  | cons c cs =>
    unfold signSplit
    by_cases h : isSignChar c <;> simp [h]

theorem expPart_eq : ∀ s : List Char, s = (expPart s).1 ++ (expPart s).2 := by
  intro s
  cases s with
  | nil => rfl
  | cons c rest =>
    unfold expPart
    by_cases hce : c = 'e' ∨ c = 'E'
    · cases rest with
      | nil => simp [hce]
      | cons c2 rest2 =>
        by_cases hs : isSignChar c2
        · simp only [hce, if_true, hs]
          by_cases hemp : (takeDigits rest2).1.isEmpty
          · simp [hemp]
          · simpa [hemp] using takeDigits_eq rest2
        · simp only [hce, if_true, hs, if_false]
          by_cases hemp : (takeDigits (c2 :: rest2)).1.isEmpty
          · simp [hemp]
          · simpa [hemp] using takeDigits_eq (c2 :: rest2)
    · simp [hce]

theorem mantissa_eq {s m r : List Char} (h : mantissa s = some (m, r)) :
    s = m ++ r ∧ m ≠ [] := by
  simp only [mantissa] at h
  split at h
  · next s3 heq =>
    split at h
    · split at h
      · exact absurd h (by simp)
      · next hemp2 hemp =>
        simp only [Option.some.injEq, Prod.mk.injEq] at h
        obtain ⟨hm, hr⟩ := h
        subst hm; subst hr
        exact ⟨takeDigits_eq s, by simpa [List.isEmpty_iff] using hemp⟩
    · next hemp2 =>
      simp only [Option.some.injEq, Prod.mk.injEq] at h
      obtain ⟨hm, hr⟩ := h
      subst hm; subst hr
      constructor
      · have h1 := takeDigits_eq s
        have h2 := takeDigits_eq s3
        conv_lhs => rw [h1, heq, h2]
        simp
      · simp
  · split at h
    · exact absurd h (by simp)
    · next hemp =>
      simp only [Option.some.injEq, Prod.mk.injEq] at h
      obtain ⟨hm, hr⟩ := h
      subst hm; subst hr
      exact ⟨takeDigits_eq s, by simpa [List.isEmpty_iff] using hemp⟩

theorem extSafe_spec {c : Char} (hc : extSafe c = true) :
    isDig c = false ∧ isSignChar c = false ∧ c ≠ '.' ∧ c ≠ 'e' ∧ c ≠ 'E' := by
  simp only [extSafe, Bool.and_eq_true, Bool.not_eq_true', beq_eq_false_iff_ne, ne_eq] at hc
  tauto

theorem safeChar_spec {c : Char} (hc : safeChar c = true) :
    isDig c = false ∧ isSignChar c = false ∧ c ≠ '.' ∧ c ≠ 'n' := by
  simp only [safeChar, Bool.and_eq_true, Bool.not_eq_true', beq_eq_false_iff_ne, ne_eq] at hc
  tauto

theorem expPart_append {c : Char} (hc : extSafe c = true) :
    ∀ s t : List Char, expPart (s ++ c :: t) = ((expPart s).1, (expPart s).2 ++ c :: t) := by
  obtain ⟨hdig, hsign, hdot, he, hE⟩ := extSafe_spec hc
  have hcE : ¬(c = 'e' ∨ c = 'E') := by tauto
  intro s t
  cases s with
  | nil => simp [expPart, hcE]
  | cons a rest =>
    by_cases ha : a = 'e' ∨ a = 'E'
    · cases rest with
      | nil => simp [expPart, ha, hsign, takeDigits, hdig]
      | cons c2 rest2 =>
        by_cases hs2 : isSignChar c2
        · rcases htd : takeDigits rest2 with ⟨d, r⟩
          have htd2 : takeDigits (rest2 ++ c :: t) = (d, r ++ c :: t) := by
            have h5 := takeDigits_append hdig rest2 t
            rw [htd] at h5; exact h5
          by_cases hemp : d.isEmpty
          · simp [expPart, ha, hs2, htd, htd2, hemp]
          · simp [expPart, ha, hs2, htd, htd2, hemp]
        · rcases htd : takeDigits (c2 :: rest2) with ⟨d, r⟩
          have htd2 : takeDigits ((c2 :: rest2) ++ c :: t) = (d, r ++ c :: t) := by
            have h5 := takeDigits_append hdig (c2 :: rest2) t
            rw [htd] at h5; exact h5
          simp only [List.cons_append] at htd2
          by_cases hemp : d.isEmpty
          · simp [expPart, ha, hs2, htd, htd2, hemp]
          · simp [expPart, ha, hs2, htd, htd2, hemp]
    · simp [expPart, ha]

theorem mantissa_append {c : Char} (hc : extSafe c = true) {s m r : List Char} (t : List Char)
    (h : mantissa s = some (m, r)) : mantissa (s ++ c :: t) = some (m, r ++ c :: t) := by
  obtain ⟨hdig, hsign, hdot, he, hE⟩ := extSafe_spec hc
  rcases htd : takeDigits s with ⟨d1, s2⟩
  have htd2 : takeDigits (s ++ c :: t) = (d1, s2 ++ c :: t) := by
    have h5 := takeDigits_append hdig s t
    rw [htd] at h5; exact h5
  simp only [mantissa, htd] at h
  simp only [mantissa, htd2]
  cases s2 with
  | nil =>
    simp only at h
    split at h
    · exact absurd h (by simp)
    · next hemp =>
      simp only [Option.some.injEq, Prod.mk.injEq] at h
      obtain ⟨hm, hr⟩ := h
      subst hm; subst hr
      simp only [List.nil_append]
      split
      · next s3 heq => rw [List.cons.injEq] at heq; exact absurd heq.1 hdot
      · simp [hemp]
  | cons x s3 =>
    by_cases hx : x = '.'
    · subst hx
      rcases htd3 : takeDigits s3 with ⟨d2, s4⟩
      have htd4 : takeDigits (s3 ++ c :: t) = (d2, s4 ++ c :: t) := by
        have h5 := takeDigits_append hdig s3 t
        rw [htd3] at h5; exact h5
      simp only [htd3] at h
      simp only [List.cons_append, htd4]
      by_cases hemp2 : d2.isEmpty
      · by_cases hemp1 : d1.isEmpty
        · simp [hemp1, hemp2] at h
        · simp only [hemp1, hemp2] at h
          simp only [if_true, if_false, Bool.false_eq_true, Option.some.injEq,
            Prod.mk.injEq, reduceIte] at h
          obtain ⟨hm, hr⟩ := h
          subst hm; subst hr
          simp [hemp1, hemp2]
      · simp only [hemp2] at h
        simp only [Bool.false_eq_true, reduceIte, Option.some.injEq, Prod.mk.injEq] at h
        obtain ⟨hm, hr⟩ := h
        subst hm; subst hr
        simp [hemp2]
    · split at h
      · next s3' heq => rw [List.cons.injEq] at heq; exact absurd heq.1 hx
      · split at h
        · exact absurd h (by simp)
        · next hemp =>
          simp only [Option.some.injEq, Prod.mk.injEq] at h
          obtain ⟨hm, hr⟩ := h
          subst hm; subst hr
          simp only [List.cons_append]
          split
          · next s3' heq => rw [List.cons.injEq] at heq; exact absurd heq.1 hx
          · simp [hemp]

theorem signSplit_append (w : List Char) (a : Char) (as : List Char) :
    signSplit ((a :: as) ++ w) = ((signSplit (a :: as)).1, (signSplit (a :: as)).2 ++ w) := by
  by_cases h : isSignChar a <;> simp [signSplit, h]

theorem matchNum_nil : matchNum [] = none := rfl

theorem matchNum_eq {s m r : List Char} (h : matchNum s = some (m, r)) :
    s = m ++ r ∧ m ≠ [] := by
  simp only [matchNum] at h
  split at h
  · exact absurd h (by simp)
  · next m' r' hmt =>
    simp only [Option.some.injEq, Prod.mk.injEq] at h
    obtain ⟨hm, hr⟩ := h
    obtain ⟨hsp, hm'ne⟩ := mantissa_eq hmt
    subst hm; subst hr
    constructor
    · conv_lhs => rw [signSplit_eq s, hsp, expPart_eq r']
      simp
    · simp [hm'ne]

theorem matchNum_append {c : Char} (hc : extSafe c = true) {s m r : List Char} (t : List Char)
    (h : matchNum s = some (m, r)) : matchNum (s ++ c :: t) = some (m, r ++ c :: t) := by
  cases s with
  | nil => exact absurd (matchNum_nil ▸ h) (by simp)
  | cons a as =>
    rcases hss : signSplit (a :: as) with ⟨sg, s1⟩
    have hss2 : signSplit ((a :: as) ++ c :: t) = (sg, s1 ++ c :: t) := by
      rw [signSplit_append (c :: t) a as, hss]
    simp only [matchNum, hss] at h
    simp only [matchNum, hss2]
    split at h
    · exact absurd h (by simp)
    · next m' r' hmt =>
      have hmt2 := mantissa_append hc t hmt
      rw [hmt2]
      rcases hep : expPart r' with ⟨e1, e2⟩
      have hep2 : expPart (r' ++ c :: t) = (e1, e2 ++ c :: t) := by
        have h5 := expPart_append hc r' t
        rw [hep] at h5; exact h5
      rw [hep] at h
      simp only [Option.some.injEq, Prod.mk.injEq] at h
      obtain ⟨hm, hr⟩ := h
      subst hm; subst hr
      simp [hep2]

theorem mantissa_cons_none {c : Char} (hdig : isDig c = false) (hdot : c ≠ '.')
    (s : List Char) : mantissa (c :: s) = none := by
  simp only [mantissa, takeDigits, hdig, Bool.false_eq_true, reduceIte]
  split
  · next s3 heq => rw [List.cons.injEq] at heq; exact absurd heq.1 hdot
  · simp

theorem matchNum_n_none (s : List Char) : matchNum ('n' :: s) = none := by
  have h1 : isSignChar 'n' = false := by decide
  have hm := mantissa_cons_none (c := 'n') (by decide) (by decide) s
  simp only [matchNum, signSplit, h1, Bool.false_eq_true, reduceIte, hm]

theorem matchTok_nil : matchTok [] = none := rfl

theorem matchTok_eq {s m r : List Char} (h : matchTok s = some (m, r)) :
    s = m ++ r ∧ m ≠ [] := by
  simp only [matchTok] at h
  split at h
  · next mr hnum =>
    have hmr : mr = (m, r) := by simpa using h
    subst hmr
    exact matchNum_eq hnum
  · next hnum =>
    split at h
    · next r' =>
      simp only [Option.some.injEq, Prod.mk.injEq] at h
      obtain ⟨hm, hr⟩ := h
      subst hm; subst hr
      exact ⟨rfl, by simp⟩
    · exact absurd h (by simp)

theorem matchTok_append {c : Char} (hc : extSafe c = true) {s m r : List Char} (t : List Char)
    (h : matchTok s = some (m, r)) : matchTok (s ++ c :: t) = some (m, r ++ c :: t) := by
  simp only [matchTok] at h ⊢
  split at h
  · next mr hnum =>
    have hmr : mr = (m, r) := by simpa using h
    subst hmr
    have h2 := matchNum_append hc t hnum
    rw [h2]
  · next hnum =>
    split at h
    · next r' =>
      simp only [Option.some.injEq, Prod.mk.injEq] at h
      obtain ⟨hm, hr⟩ := h
      subst hm; subst hr
      have hnone := matchNum_n_none ('a' :: 'n' :: (r' ++ c :: t))
      simp only [List.cons_append, hnone]
    · exact absurd h (by simp)

theorem matchTok_cons_safe {c : Char} (hs : safeChar c = true) (s : List Char) :
    matchTok (c :: s) = none := by
  obtain ⟨hdig, hsign, hdot, hn⟩ := safeChar_spec hs
  have hnum : matchNum (c :: s) = none := by
    have hm := mantissa_cons_none hdig hdot s
    simp only [matchNum, signSplit, hsign, Bool.false_eq_true, reduceIte, hm]
  simp only [matchTok, hnum]
  split
  · next r' heq => rw [List.cons.injEq] at heq; exact absurd heq.1 hn
  · rfl

theorem matchTok_n_cons {c : Char} (hne : c ≠ 'a') (s : List Char) :
    matchTok ('n' :: c :: s) = none := by
  have hnum := matchNum_n_none (c :: s)
  simp only [matchTok, hnum]
  split
  · next r' heq =>
    simp only [List.cons.injEq, true_and] at heq
    exact absurd heq.1 hne
  · rfl

theorem matchTok_rest_le {a : Char} {as m r : List Char}
    (h : matchTok (a :: as) = some (m, r)) : r.length ≤ as.length := by
  obtain ⟨hseq, hmne⟩ := matchTok_eq h
  have hlen := congrArg List.length hseq
  simp only [List.length_cons, List.length_append] at hlen
  have hpos : 1 ≤ m.length := Nat.succ_le_of_lt (List.length_pos.mpr hmne)
  omega

theorem findallAux_congr :
    ∀ n k (s : List Char), s.length ≤ n → s.length ≤ k → findallAux n s = findallAux k s := by
  intro n
  induction n with
  | zero =>
    intro k s hn _
    have hs : s = [] := List.eq_nil_of_length_eq_zero (Nat.le_zero.mp hn)
    subst hs
    cases k <;> rfl
  | succ n ih =>
    intro k s hn hk
    cases s with
    | nil => cases k <;> rfl
    | cons a as =>
      cases k with
      | zero => simp at hk
      | succ k' =>
        simp only [findallAux]
        rcases hmt : matchTok (a :: as) with _ | ⟨m, r⟩
        · exact ih k' as (by simpa using hn) (by simpa using hk)
        · have hr := matchTok_rest_le hmt
          simp only [List.length_cons] at hn hk
          exact congrArg (m :: ·)
            (ih k' r (le_trans hr (by omega)) (le_trans hr (by omega)))

theorem findall_cons_none {c : Char} {s : List Char} (h : matchTok (c :: s) = none) :
    findall (c :: s) = findall s := by
  simp only [findall, List.length_cons, findallAux, h]

theorem findall_cons_some {s m r : List Char} (h : matchTok s = some (m, r)) :
    findall s = m :: findall r := by
  cases s with
  | nil => exact absurd (matchTok_nil ▸ h) (by simp)
  | cons a as =>
    have hr := matchTok_rest_le h
    simp only [findall, List.length_cons, findallAux, h]
    exact congrArg (m :: ·) (findallAux_congr as.length r.length r hr le_rfl)

theorem findall_noStart : ∀ l, noStart l = true → ∀ s, findall (l ++ s) = findall s := by
  intro l
  induction l with
  | nil => intro _ s; rfl
  | cons c rest ih =>
    intro h s
    simp only [noStart, Bool.and_eq_true, Bool.or_eq_true] at h
    obtain ⟨hc, hrest⟩ := h
    rw [List.cons_append]
    have hnone : matchTok (c :: (rest ++ s)) = none := by
      rcases hc with hsafe | hn
      · exact matchTok_cons_safe hsafe _
      · have hcn : c = 'n' := by simpa using hn.1
        subst hcn
        cases rest with
        | nil => simp at hn
        | cons c2 rest2 =>
          have hne : c2 ≠ 'a' := by simpa using hn.2
          rw [List.cons_append]
          exact matchTok_n_cons hne _
    rw [findall_cons_none hnone]
    exact ih hrest s

theorem isNumTok_matchTok {v : List Char} (hv : isNumTok v = true) :
    matchTok v = some (v, []) := by
  unfold isNumTok at hv
  split at hv
  · next m r hmt =>
    have hr : r = [] := by simpa [List.isEmpty_iff] using hv
    subst hr
    obtain ⟨hveq, -⟩ := matchTok_eq hmt
    rw [List.append_nil] at hveq
    rw [hveq] at hmt ⊢
    exact hmt
  · exact absurd hv (by simp)

theorem findall_numline {pfx v cmt : List Char} (hp : noStart pfx = true)
    (hv : isNumTok v = true) :
    (findall (pfx ++ v ++ ' ' :: cmt)).head? = some v := by
  have hext : extSafe ' ' = true := by decide
  have hm : matchTok (v ++ ' ' :: cmt) = some (v, ' ' :: cmt) := by
    have h2 := matchTok_append hext cmt (isNumTok_matchTok hv)
    simpa using h2
  rw [List.append_assoc, findall_noStart pfx hp, findall_cons_some hm]
  rfl

/-! ## Lemmas: identifier-run scanning of the generated text -/

theorem identRunsAux_sep {c : Char} (hc : identChar c = false) :
    ∀ (x cur y : List Char),
      identRunsAux cur (x ++ c :: y) = identRunsAux cur x ++ identRunsAux [] y := by
  intro x
  induction x with
  | nil =>
    intro cur y
    simp only [List.nil_append, identRunsAux, hc, Bool.false_eq_true, reduceIte]
    by_cases hcur : cur.isEmpty <;> simp [identRunsAux, hcur]
  | cons a as ih =>
    intro cur y
    simp only [List.cons_append, identRunsAux]
    by_cases ha : identChar a
    · simp [ha, ih]
    · by_cases hcur : cur.isEmpty <;> simp [ha, hcur, ih]

theorem identRunsAux_chars :
    ∀ (s cur r : List Char), r ∈ identRunsAux cur s → ∀ ch ∈ r, ch ∈ cur ∨ ch ∈ s := by
  intro s
  induction s with
  | nil =>
    intro cur r hr ch hch
    simp only [identRunsAux] at hr
    split at hr
    · simp at hr
    · simp only [List.mem_singleton] at hr
      subst hr
      exact Or.inl (List.mem_reverse.mp hch)
  | cons c cs ih =>
    intro cur r hr ch hch
    simp only [identRunsAux] at hr
    split at hr
    · rcases ih (c :: cur) r hr ch hch with h | h
      · rcases List.mem_cons.mp h with h | h
        · right; simp [h]
        · left; exact h
      · right; simp [h]
    · split at hr
      · rcases ih [] r hr ch hch with h | h
        · simp at h
        · right; simp [h]
      · rcases List.mem_cons.mp hr with h | h
        · subst h; exact Or.inl (List.mem_reverse.mp hch)
        · rcases ih [] r h ch hch with h2 | h2
          · simp at h2
          · right; simp [h2]

theorem instruments_nil_of_noM {v : List Char} (hM : 'M' ∉ v) : instruments v = [] := by
  unfold instruments identRuns
  rw [List.filter_eq_nil_iff]
  intro r hr hpre
  have hpre2 : "MEASURE".data <+: r := by
    exact List.isPrefixOf_iff_prefix.mp hpre
  obtain ⟨t, ht⟩ := hpre2
  have hMr : 'M' ∈ r := by
    rw [← ht]
    exact List.mem_append.mpr (Or.inl (by decide))
  rcases identRunsAux_chars v [] r hr 'M' hMr with h | h
  · simp at h
  · exact hM h

theorem instruments_append_sep {c : Char} (hc : identChar c = false) (x y : List Char) :
    instruments (x ++ c :: y) = instruments x ++ instruments y := by
  unfold instruments identRuns
  rw [identRunsAux_sep hc x [] y, List.filter_append]

theorem instruments_chunk {x : List Char} {c : Char} (hx : instruments x = [])
    (hc : identChar c = false) (y : List Char) :
    instruments (x ++ c :: y) = instruments y := by
  rw [instruments_append_sep hc, hx, List.nil_append]

theorem instruments_val_mid {v : List Char} (hM : 'M' ∉ v) (y : List Char) :
    instruments (v ++ ' ' :: y) = instruments y := by
  rw [instruments_append_sep (by decide) v y, instruments_nil_of_noM hM, List.nil_append]

theorem natStrAux_digits : ∀ fuel n, ∀ c ∈ natStrAux fuel n, isDig c = true := by
  intro fuel
  induction fuel with
  | zero => intro n c hc; simp [natStrAux] at hc
  | succ f ih =>
    intro n c hc
    have hdc : ∀ m, m < 10 → isDig (Nat.digitChar m) = true := by decide
    simp only [natStrAux] at hc
    split at hc
    · next h =>
      simp only [List.mem_singleton] at hc
      subst hc
      exact hdc n h
    · rcases List.mem_append.mp hc with h | h
      · exact ih _ c h
      · simp only [List.mem_singleton] at h
        subst h
        exact hdc _ (Nat.mod_lt _ (by omega))

theorem natStr_noM (n : Nat) : 'M' ∉ natStr n := by
  intro h
  exact absurd (natStrAux_digits (n + 1) n 'M' h) (by decide)

set_option maxHeartbeats 2000000 in
theorem instruments_header {vT vs vm beta tau vp : List Char}
    (hT : 'M' ∉ vT) (hs : 'M' ∉ vs) (hm : 'M' ∉ vm)
    (hb : 'M' ∉ beta) (ht : 'M' ∉ tau) (hp : 'M' ∉ vp) :
    instruments (make_param_file_header beta tau vT vs vm vp) = [] := by
  have e1 : make_param_file_header beta tau vT vs vm vp
      = headerDoc.data ++ '\n'
        :: ("#define Tsteps".data ++ ' '
        :: (vT ++ ' '
        :: ("// number of Monte-Carlo initial equilibration updates".data ++ '\n'
        :: ("#define steps".data ++ ' '
        :: (vs ++ ' '
        :: ("// number of Monte-Carlo updates".data ++ '\n'
        :: ("#define stepsPerMeasurement".data ++ ' '
        :: (vm ++ ' '
        :: ("// number of Monte-Carlo updates per measurement".data ++ '\n'
        :: ("#define beta".data ++ ' '
        :: (beta ++ ' '
        :: ("// inverse temperature".data ++ '\n'
        :: ("#define tau".data ++ ' '
        :: (tau ++ ' '
        :: ("//imaginary propogation time".data ++ '\n'
        :: ("#define parity_cond".data ++ ' '
        :: (vp ++ ' '
        :: "// controls parity subspace measurement \n".data))))))))))))))))) := by
    simp only [make_param_file_header, tstepsLine, stepsLine, spmLine, betaLine, tauLine,
      parityLine, List.append_assoc]
    rfl
  rw [e1]
  rw [instruments_chunk (by decide) (by decide)]
  rw [instruments_chunk (by decide) (by decide)]
  rw [instruments_val_mid hT]
  rw [instruments_chunk (by decide) (by decide)]
  rw [instruments_chunk (by decide) (by decide)]
  rw [instruments_val_mid hs]
  rw [instruments_chunk (by decide) (by decide)]
  rw [instruments_chunk (by decide) (by decide)]
  rw [instruments_val_mid hm]
  rw [instruments_chunk (by decide) (by decide)]
  rw [instruments_chunk (by decide) (by decide)]
  rw [instruments_val_mid hb]
  rw [instruments_chunk (by decide) (by decide)]
  rw [instruments_chunk (by decide) (by decide)]
  rw [instruments_val_mid ht]
  rw [instruments_chunk (by decide) (by decide)]
  rw [instruments_chunk (by decide) (by decide)]
  rw [instruments_val_mid hp]
  decide

set_option maxRecDepth 20000 in
theorem instruments_footer_tail (save restart : PyArg) :
    instruments ("//\n// Below are the implementation parameters:\n//\n\n#define qmax     1000                // upper bound for the maximal length of the sequence of permutation operators\n#define Nbins    250                 // number of bins for the error estimation via binning analysis\n#define EXHAUSTIVE_CYCLE_SEARCH      // comment this line for a more restrictive cycle search\n#define GAPS_GEOMETRIC_PARAMETER 0.8 // parameter of geometric distribution for the length of gaps in the cycle completion update\n#define COMPOSITE_UPDATE_BREAK_PROBABILITY  0.9   // exit composite update at each step with this probability\n\n// #define ABS_WEIGHTS                  // uncomment this line to employ absolute values of weights rather than real parts of weights\n// #define EXACTLY_REPRODUCIBLE         // uncomment this to always employ the same RNG seeds and reproduce exactly the same results\n\n//\n// Uncomment or comment the macros below to enable or disable the ability to checkpoint and restart\n//\n".data
      ++ ((if pyEqTrue save then saveBlock.data else [])
        ++ (if pyEqTrue restart then restartBlock.data else []))) = [] := by
  cases hs : pyEqTrue save <;> cases hr : pyEqTrue restart <;>
    simp only [hs, hr, Bool.false_eq_true, reduceIte] <;> decide

set_option maxRecDepth 40000 in
set_option maxHeartbeats 4000000 in
theorem instruments_all_stand {beta tau : List Char} (hb : 'M' ∉ beta) (ht : 'M' ∉ tau)
    (Tsteps steps stepsPerMeasurement parity : Nat) (save restart : PyArg) :
    instruments (make_all_stand_param_fstr beta tau Tsteps steps stepsPerMeasurement parity
      save restart) = allStandInstruments := by
  have e1 : make_all_stand_param_fstr beta tau Tsteps steps stepsPerMeasurement parity
        save restart
      = make_param_file_header beta tau (natStr Tsteps) (natStr steps)
          (natStr stepsPerMeasurement) (natStr parity)
        ++ '\n' :: ("//\n// Below is the list of standard observables:\n//\n\n#define MEASURE_H                    // <H>             is measured when this line is not commented\n#define MEASURE_H2                   // <H^2>           is measured when this line is not commented\n#define MEASURE_HDIAG                // <H_\x7bdiag\x7d>      is measured when this line is not commented\n#define MEASURE_HDIAG2               // <H_\x7bdiag\x7d^2>    is measured when this line is not commented\n#define MEASURE_HOFFDIAG             // <H_\x7boffdiag\x7d>   is measured when this line is not commented\n#define MEASURE_HOFFDIAG2            // <H_\x7boffdiag\x7d^2> is measured when this line is not commented\n#define MEASURE_Z_MAGNETIZATION      // Z-magnetization is measured when this line is not commented\n#define MEASURE_HDIAG_CORR\n#define MEASURE_HDIAG_EINT\n#define MEASURE_HDIAG_FINT\n#define MEASURE_HOFFDIAG_CORR\n#define MEASURE_HOFFDIAG_EINT\n#define MEASURE_HOFFDIAG_FINT\n".data
        ++ '\n' :: ("//\n// Below are the implementation parameters:\n//\n\n#define qmax     1000                // upper bound for the maximal length of the sequence of permutation operators\n#define Nbins    250                 // number of bins for the error estimation via binning analysis\n#define EXHAUSTIVE_CYCLE_SEARCH      // comment this line for a more restrictive cycle search\n#define GAPS_GEOMETRIC_PARAMETER 0.8 // parameter of geometric distribution for the length of gaps in the cycle completion update\n#define COMPOSITE_UPDATE_BREAK_PROBABILITY  0.9   // exit composite update at each step with this probability\n\n// #define ABS_WEIGHTS                  // uncomment this line to employ absolute values of weights rather than real parts of weights\n// #define EXACTLY_REPRODUCIBLE         // uncomment this to always employ the same RNG seeds and reproduce exactly the same results\n\n//\n// Uncomment or comment the macros below to enable or disable the ability to checkpoint and restart\n//\n".data
        ++ ((if pyEqTrue save then saveBlock.data else [])
          ++ (if pyEqTrue restart then restartBlock.data else [])))) := by
    simp only [make_all_stand_param_fstr, make_param_file_footer, List.append_assoc]
    rfl
  rw [e1]
  rw [instruments_append_sep (by decide)]
  rw [instruments_header (natStr_noM _) (natStr_noM _) (natStr_noM _) hb ht (natStr_noM _)]
  rw [List.nil_append]
  rw [instruments_append_sep (by decide)]
  rw [instruments_footer_tail]
  rw [List.append_nil]
  decide

set_option maxRecDepth 40000 in
set_option maxHeartbeats 4000000 in
theorem instruments_hdiag {beta : List Char} (hb : 'M' ∉ beta) (fidsus : PyArg)
    (Tsteps steps stepsPerMeasurement parity : Nat) (save restart : PyArg) :
    instruments (make_hdiag_susceptibility_param_fstr beta fidsus Tsteps steps
      stepsPerMeasurement parity save restart)
      = ["MEASURE_HDIAG".data, "MEASURE_HDIAG_EINT".data]
        ++ (if pyIsTrue fidsus then ["MEASURE_HDIAG_FINT".data] else []) := by
  have e1 : make_hdiag_susceptibility_param_fstr beta fidsus Tsteps steps stepsPerMeasurement
        parity save restart
      = make_param_file_header beta "0.0".data (natStr Tsteps) (natStr steps)
          (natStr stepsPerMeasurement) (natStr parity)
        ++ '\n' :: ("//\n// Below is the list of standard observables:\n//\n\n#define MEASURE_HDIAG                // <H_\x7bdiag\x7d>      is measured when this line is not commented\n#define MEASURE_HDIAG_EINT\n\n".data
        ++ ((if pyIsTrue fidsus then "#define MEASURE_HDIAG_FINT\n".data else [])
          ++ '\n' :: ("//\n// Below are the implementation parameters:\n//\n\n#define qmax     1000                // upper bound for the maximal length of the sequence of permutation operators\n#define Nbins    250                 // number of bins for the error estimation via binning analysis\n#define EXHAUSTIVE_CYCLE_SEARCH      // comment this line for a more restrictive cycle search\n#define GAPS_GEOMETRIC_PARAMETER 0.8 // parameter of geometric distribution for the length of gaps in the cycle completion update\n#define COMPOSITE_UPDATE_BREAK_PROBABILITY  0.9   // exit composite update at each step with this probability\n\n// #define ABS_WEIGHTS                  // uncomment this line to employ absolute values of weights rather than real parts of weights\n// #define EXACTLY_REPRODUCIBLE         // uncomment this to always employ the same RNG seeds and reproduce exactly the same results\n\n//\n// Uncomment or comment the macros below to enable or disable the ability to checkpoint and restart\n//\n".data
          ++ ((if pyEqTrue save then saveBlock.data else [])
            ++ (if pyEqTrue restart then restartBlock.data else []))))) := by
    simp only [make_hdiag_susceptibility_param_fstr, make_param_file_footer, List.append_assoc]
    rfl
  rw [e1]
  rw [instruments_append_sep (by decide)]
  rw [instruments_header (natStr_noM _) (natStr_noM _) (natStr_noM _) hb (by decide)
    (natStr_noM _)]
  rw [List.nil_append]
  cases hf : pyIsTrue fidsus
  · simp only [hf, Bool.false_eq_true, reduceIte, List.nil_append]
    rw [instruments_append_sep (by decide)]
    rw [instruments_footer_tail]
    rw [List.append_nil]
    decide
  · simp only [hf, reduceIte]
    rw [← List.append_assoc]
    rw [instruments_append_sep (by decide)]
    rw [instruments_footer_tail]
    rw [List.append_nil]
    decide

set_option maxRecDepth 40000 in
set_option maxHeartbeats 4000000 in
theorem instruments_hoffdiag {beta : List Char} (hb : 'M' ∉ beta) (fidsus : PyArg)
    (Tsteps steps stepsPerMeasurement parity : Nat) (save restart : PyArg) :
    instruments (make_hoffdiag_susceptibility_param_fstr beta fidsus Tsteps steps
      stepsPerMeasurement parity save restart)
      = ["MEASURE_HOFFDIAG".data, "MEASURE_HOFFDIAG_EINT".data]
        ++ (if pyIsTrue fidsus then ["MEASURE_HOFFDIAG_FINT".data] else []) := by
  have e1 : make_hoffdiag_susceptibility_param_fstr beta fidsus Tsteps steps stepsPerMeasurement
        parity save restart
      = make_param_file_header beta "0.0".data (natStr Tsteps) (natStr steps)
          (natStr stepsPerMeasurement) (natStr parity)
        ++ '\n' :: ("//\n// Below is the list of standard observables:\n//\n\n#define MEASURE_HOFFDIAG                // <H_\x7bdiag\x7d>      is measured when this line is not commented\n#define MEASURE_HOFFDIAG_EINT\n\n".data
        ++ ((if pyIsTrue fidsus then "#define MEASURE_HOFFDIAG_FINT\n".data else [])
          ++ '\n' :: ("//\n// Below are the implementation parameters:\n//\n\n#define qmax     1000                // upper bound for the maximal length of the sequence of permutation operators\n#define Nbins    250                 // number of bins for the error estimation via binning analysis\n#define EXHAUSTIVE_CYCLE_SEARCH      // comment this line for a more restrictive cycle search\n#define GAPS_GEOMETRIC_PARAMETER 0.8 // parameter of geometric distribution for the length of gaps in the cycle completion update\n#define COMPOSITE_UPDATE_BREAK_PROBABILITY  0.9   // exit composite update at each step with this probability\n\n// #define ABS_WEIGHTS                  // uncomment this line to employ absolute values of weights rather than real parts of weights\n// #define EXACTLY_REPRODUCIBLE         // uncomment this to always employ the same RNG seeds and reproduce exactly the same results\n\n//\n// Uncomment or comment the macros below to enable or disable the ability to checkpoint and restart\n//\n".data
          ++ ((if pyEqTrue save then saveBlock.data else [])
            ++ (if pyEqTrue restart then restartBlock.data else []))))) := by
    simp only [make_hoffdiag_susceptibility_param_fstr, make_param_file_footer,
      List.append_assoc]
    rfl
  rw [e1]
  rw [instruments_append_sep (by decide)]
  rw [instruments_header (natStr_noM _) (natStr_noM _) (natStr_noM _) hb (by decide)
    (natStr_noM _)]
  rw [List.nil_append]
  cases hf : pyIsTrue fidsus
  · simp only [hf, Bool.false_eq_true, reduceIte, List.nil_append]
    rw [instruments_append_sep (by decide)]
    rw [instruments_footer_tail]
    rw [List.append_nil]
    decide
  · simp only [hf, reduceIte]
    rw [← List.append_assoc]
    rw [instruments_append_sep (by decide)]
    rw [instruments_footer_tail]
    rw [List.append_nil]
    decide

/-! ## Lemmas: parser success and failure structure -/

theorem firstTok_eq_none_iff (lines : List (List Char)) (i : Nat) :
    firstTok lines i = none
      ↔ lines.get? i = none ∨ ∃ l, lines.get? i = some l ∧ findall l = [] := by
  unfold firstTok
  cases h : lines.get? i <;> simp [h, List.head?_eq_none_iff]

theorem parse_otxt_isSome (lines : List (List Char)) :
    (parse_otxt_temp lines).isSome = otxtOffsets.all (fun i => (firstTok lines i).isSome) := by
  have hr : List.range' 1 6 = [1, 2, 3, 4, 5, 6] := rfl
  simp only [otxtOffsets, List.all_cons, List.all_nil, Bool.and_true]
  unfold parse_otxt_temp
  rw [hr]
  cases h2 : firstTok lines 2 <;> try simp [readGroups, readGroup]
  cases h3 : firstTok lines 3 <;> try simp [readGroups, readGroup]
  cases h4 : firstTok lines 4 <;> try simp [readGroups, readGroup]
  cases h5 : firstTok lines 5 <;> try simp [readGroups, readGroup]
  cases h7 : firstTok lines 7 <;> try simp [readGroups, readGroup]
  cases h8 : firstTok lines 8 <;> try simp [readGroups, readGroup]
  cases h10 : firstTok lines 10 <;> try simp [readGroups, readGroup]
  cases h11 : firstTok lines 11 <;> try simp [readGroups, readGroup]
  cases h13 : firstTok lines 13 <;> try simp [readGroups, readGroup]
  cases h14 : firstTok lines 14 <;> try simp [readGroups, readGroup]
  cases h16 : firstTok lines 16 <;> try simp [readGroups, readGroup]
  cases h17 : firstTok lines 17 <;> try simp [readGroups, readGroup]
  cases h19 : firstTok lines 19 <;> try simp [readGroups, readGroup]
  cases h20 : firstTok lines 20 <;> try simp [readGroups, readGroup]
  cases h22 : firstTok lines 22 <;> try simp [readGroups, readGroup]
  cases h23 : firstTok lines 23 <;> try simp [readGroups, readGroup]
  cases h24 : firstTok lines 24 <;> try simp [readGroups, readGroup]

theorem parse_susceptibility_isSome (lines : List (List Char)) (fidsus : PyArg) :
    (parse_susceptibility_temp lines fidsus).isSome
      = (susOffsets fidsus).all (fun i => (firstTok lines i).isSome) := by
  unfold parse_susceptibility_temp susMaxIdx susOffsets
  cases hf : pyEqTrue fidsus
  · simp only [hf, Bool.false_eq_true, reduceIte]
    have hr : List.range' 1 (3 - 1) = [1, 2] := rfl
    rw [hr]
    simp only [List.all_cons, List.all_nil, Bool.and_true]
    cases h2 : firstTok lines 2 <;> try simp [readGroups, readGroup]
    cases h3 : firstTok lines 3 <;> try simp [readGroups, readGroup]
    cases h4 : firstTok lines 4 <;> try simp [readGroups, readGroup]
    cases h5 : firstTok lines 5 <;> try simp [readGroups, readGroup]
    cases h7 : firstTok lines 7 <;> try simp [readGroups, readGroup]
    cases h8 : firstTok lines 8 <;> try simp [readGroups, readGroup]
    cases h10 : firstTok lines 10 <;> try simp [readGroups, readGroup]
    cases h11 : firstTok lines 11 <;> try simp [readGroups, readGroup]
    cases h12 : firstTok lines 12 <;> try simp [readGroups, readGroup]
  · simp only [hf, reduceIte]
    have hr : List.range' 1 (4 - 1) = [1, 2, 3] := rfl
    rw [hr]
    simp only [List.all_cons, List.all_nil, Bool.and_true]
    cases h2 : firstTok lines 2 <;> try simp [readGroups, readGroup]
    cases h3 : firstTok lines 3 <;> try simp [readGroups, readGroup]
    cases h4 : firstTok lines 4 <;> try simp [readGroups, readGroup]
    cases h5 : firstTok lines 5 <;> try simp [readGroups, readGroup]
    cases h7 : firstTok lines 7 <;> try simp [readGroups, readGroup]
    cases h8 : firstTok lines 8 <;> try simp [readGroups, readGroup]
    cases h10 : firstTok lines 10 <;> try simp [readGroups, readGroup]
    cases h11 : firstTok lines 11 <;> try simp [readGroups, readGroup]
    cases h13 : firstTok lines 13 <;> try simp [readGroups, readGroup]
    cases h14 : firstTok lines 14 <;> try simp [readGroups, readGroup]
    cases h15 : firstTok lines 15 <;> try simp [readGroups, readGroup]

theorem parse_correlator_isSome (lines : List (List Char)) :
    (parse_correlator_temp lines).isSome
      = corrOffsets.all (fun i => (firstTok lines i).isSome) := by
  have hr : List.range' 1 2 = [1, 2] := rfl
  simp only [corrOffsets, List.all_cons, List.all_nil, Bool.and_true]
  unfold parse_correlator_temp
  rw [hr]
  cases h2 : firstTok lines 2 <;> try simp [readGroups, readGroup]
  cases h3 : firstTok lines 3 <;> try simp [readGroups, readGroup]
  cases h4 : firstTok lines 4 <;> try simp [readGroups, readGroup]
  cases h5 : firstTok lines 5 <;> try simp [readGroups, readGroup]
  cases h7 : firstTok lines 7 <;> try simp [readGroups, readGroup]
  cases h8 : firstTok lines 8 <;> try simp [readGroups, readGroup]
  cases h10 : firstTok lines 10 <;> try simp [readGroups, readGroup]
  cases h11 : firstTok lines 11 <;> try simp [readGroups, readGroup]
  cases h12 : firstTok lines 12 <;> try simp [readGroups, readGroup]

theorem parse_otxt_inv {lines : List (List Char)} {r : ParseResult}
    (h : parse_otxt_temp lines = some r) :
    ∃ t2 t3 t4 t5 gs ss t, firstTok lines 2 = some t2 ∧ firstTok lines 3 = some t3
      ∧ firstTok lines 4 = some t4 ∧ firstTok lines 5 = some t5
      ∧ readGroups lines (List.range' 1 6) = some (gs, ss)
      ∧ firstTok lines (6 + 3 * 6) = some t
      ∧ r = ⟨[PyVal.s t2, PyVal.s t3, PyVal.s t4, PyVal.s t5],
             gs.map (fun x => PyVal.f (tokToFloat x)),
             ss.map (fun x => PyVal.f (tokToFloat x)), PyVal.s t⟩ := by
  simp only [parse_otxt_temp, bind, Option.bind_eq_some, pure, Option.some.injEq] at h
  obtain ⟨t2, h2, t3, h3, t4, h4, t5, h5, ⟨gs, ss⟩, hg, t, ht, hr⟩ := h
  exact ⟨t2, t3, t4, t5, gs, ss, t, h2, h3, h4, h5, hg, ht, hr.symm⟩

theorem parse_susceptibility_inv {lines : List (List Char)} {fidsus : PyArg} {r : ParseResult}
    (h : parse_susceptibility_temp lines fidsus = some r) :
    ∃ t2 t3 t4 t5 gs ss t, firstTok lines 2 = some t2 ∧ firstTok lines 3 = some t3
      ∧ firstTok lines 4 = some t4 ∧ firstTok lines 5 = some t5
      ∧ readGroups lines (List.range' 1 (susMaxIdx fidsus - 1)) = some (gs, ss)
      ∧ firstTok lines (6 + 3 * (susMaxIdx fidsus - 1)) = some t
      ∧ r = ⟨[PyVal.s t2, PyVal.s t3, PyVal.s t4, PyVal.s t5],
             gs.map PyVal.s, ss.map PyVal.s, PyVal.s t⟩ := by
  simp only [parse_susceptibility_temp, bind, Option.bind_eq_some, pure,
    Option.some.injEq] at h
  obtain ⟨t2, h2, t3, h3, t4, h4, t5, h5, ⟨gs, ss⟩, hg, t, ht, hr⟩ := h
  exact ⟨t2, t3, t4, t5, gs, ss, t, h2, h3, h4, h5, hg, ht, hr.symm⟩

theorem parse_correlator_inv {lines : List (List Char)} {r : ParseResult}
    (h : parse_correlator_temp lines = some r) :
    ∃ t2 t3 t4 t5 gs ss t, firstTok lines 2 = some t2 ∧ firstTok lines 3 = some t3
      ∧ firstTok lines 4 = some t4 ∧ firstTok lines 5 = some t5
      ∧ readGroups lines (List.range' 1 2) = some (gs, ss)
      ∧ firstTok lines (6 + 3 * 2) = some t
      ∧ r = ⟨[PyVal.s t2, PyVal.s t3, PyVal.s t4, PyVal.s t5],
             gs.map PyVal.s, ss.map PyVal.s, PyVal.s t⟩ := by
  simp only [parse_correlator_temp, bind, Option.bind_eq_some, pure, Option.some.injEq] at h
  obtain ⟨t2, h2, t3, h3, t4, h4, t5, h5, ⟨gs, ss⟩, hg, t, ht, hr⟩ := h
  exact ⟨t2, t3, t4, t5, gs, ss, t, h2, h3, h4, h5, hg, ht, hr.symm⟩

theorem parse_reportA_eq : parse_otxt_temp reportA = some reportAResult := rfl

theorem parse_reportB_eq :
    parse_susceptibility_temp reportB PyArg.pyTrue = some reportBResult := rfl

theorem parse_reportC_eq : parse_correlator_temp reportC = some reportCResult := rfl

/-! ## The claims -/

/-- Claim C7 (confirmed): the Numeric Token Extractor — the shared pattern
`[-+]?\d*\.?\d+(?:[eE][-+]?\d+)?|nan` applied with `findall` — given the input
line `"-3.2e-5 nan 42"` produces exactly the ordered sequence of substrings
`["-3.2e-5", "nan", "42"]`. -/
theorem c7_numeric_token_extractor :
    findall "-3.2e-5 nan 42".data = ["-3.2e-5".data, "nan".data, "42".data] := by
  decide

/-- Claim C5 (confirmed): every parser variant forms the emergent block
`(sign, sign_std, mean_q, max_q)` from the first numeric token of the lines at
zero-based offsets 2, 3, 4, 5, in that order, and never reads the first two
lines of the file into the result: replacing those two lines leaves every
variant's result unchanged. -/
theorem c5_emergent_block :
    (∀ a b a' b' : List Char, ∀ rest : List (List Char),
        parse_otxt_temp (a :: b :: rest) = parse_otxt_temp (a' :: b' :: rest))
    ∧ (∀ a b a' b' : List Char, ∀ rest : List (List Char), ∀ fidsus : PyArg,
        parse_susceptibility_temp (a :: b :: rest) fidsus
          = parse_susceptibility_temp (a' :: b' :: rest) fidsus)
    ∧ (∀ a b a' b' : List Char, ∀ rest : List (List Char),
        parse_correlator_temp (a :: b :: rest) = parse_correlator_temp (a' :: b' :: rest))
    ∧ (∀ lines r, parse_otxt_temp lines = some r →
        ∃ t2 t3 t4 t5, firstTok lines 2 = some t2 ∧ firstTok lines 3 = some t3
          ∧ firstTok lines 4 = some t4 ∧ firstTok lines 5 = some t5
          ∧ r.emergent = [PyVal.s t2, PyVal.s t3, PyVal.s t4, PyVal.s t5])
    ∧ (∀ lines fidsus r, parse_susceptibility_temp lines fidsus = some r →
        ∃ t2 t3 t4 t5, firstTok lines 2 = some t2 ∧ firstTok lines 3 = some t3
          ∧ firstTok lines 4 = some t4 ∧ firstTok lines 5 = some t5
          ∧ r.emergent = [PyVal.s t2, PyVal.s t3, PyVal.s t4, PyVal.s t5])
    ∧ (∀ lines r, parse_correlator_temp lines = some r →
        ∃ t2 t3 t4 t5, firstTok lines 2 = some t2 ∧ firstTok lines 3 = some t3
          ∧ firstTok lines 4 = some t4 ∧ firstTok lines 5 = some t5
          ∧ r.emergent = [PyVal.s t2, PyVal.s t3, PyVal.s t4, PyVal.s t5]) := by
  refine ⟨fun a b a' b' rest => rfl, fun a b a' b' rest fidsus => ?_,
    fun a b a' b' rest => rfl, ?_, ?_, ?_⟩
  · unfold parse_susceptibility_temp susMaxIdx
    cases pyEqTrue fidsus <;> rfl
  · intro lines r h
    obtain ⟨t2, t3, t4, t5, gs, ss, t, h2, h3, h4, h5, hg, ht, hr⟩ := parse_otxt_inv h
    exact ⟨t2, t3, t4, t5, h2, h3, h4, h5, by rw [hr]⟩
  · intro lines fidsus r h
    obtain ⟨t2, t3, t4, t5, gs, ss, t, h2, h3, h4, h5, hg, ht, hr⟩ :=
      parse_susceptibility_inv h
    exact ⟨t2, t3, t4, t5, h2, h3, h4, h5, by rw [hr]⟩
  · intro lines r h
    obtain ⟨t2, t3, t4, t5, gs, ss, t, h2, h3, h4, h5, hg, ht, hr⟩ := parse_correlator_inv h
    exact ⟨t2, t3, t4, t5, h2, h3, h4, h5, by rw [hr]⟩

/-- Witness for C5 at a concrete report: replacing the two header lines leaves
the parse unchanged, and the emergent block is the four tokens of lines 2-5. -/
theorem c5_witness :
    parse_otxt_temp ("u".data :: "v".data :: reportA.drop 2) = parse_otxt_temp reportA
    ∧ ∃ t2 t3 t4 t5, firstTok reportA 2 = some t2 ∧ firstTok reportA 3 = some t3
        ∧ firstTok reportA 4 = some t4 ∧ firstTok reportA 5 = some t5
        ∧ reportAResult.emergent = [PyVal.s t2, PyVal.s t3, PyVal.s t4, PyVal.s t5] := by
  constructor
  · exact c5_emergent_block.1 "u".data "v".data "x".data "y".data (reportA.drop 2)
  · exact c5_emergent_block.2.2.2.1 reportA reportAResult parse_reportA_eq

/-- Claim C1 (amended): after the last result group, the Duration is the first
numeric token of the line at zero-based offset `6 + 3*G` — not `6 + 3*(G-1)` —
where G is the variant's result-group count (G = 6, line 24, for
`parse_otxt_temp`; G = 2, line 12, for `parse_correlator_temp`). -/
theorem c1_duration_offset (lines : List (List Char)) :
    (∀ r : ParseResult, parse_otxt_temp lines = some r →
        ∃ t, firstTok lines (6 + 3 * 6) = some t ∧ r.time = PyVal.s t)
    ∧ (∀ r : ParseResult, parse_correlator_temp lines = some r →
        ∃ t, firstTok lines (6 + 3 * 2) = some t ∧ r.time = PyVal.s t) := by
  constructor
  · intro r h
    obtain ⟨t2, t3, t4, t5, gs, ss, t, h2, h3, h4, h5, hg, ht, hr⟩ := parse_otxt_inv h
    exact ⟨t, ht, by rw [hr]⟩
  · intro r h
    obtain ⟨t2, t3, t4, t5, gs, ss, t, h2, h3, h4, h5, hg, ht, hr⟩ := parse_correlator_inv h
    exact ⟨t, ht, by rw [hr]⟩

/-- Counterexample to C1 as stated: on a well-formed 25-line report whose line
21 (= 6 + 3*(6-1)) holds the token "111" and whose line 24 holds "999", the
full-standard parser returns Duration "999", not "111"; and on a 13-line
correlator report the line at 6 + 3*(2-1) = 9 holds no numeric token at all
while the parse still succeeds with Duration "555". -/
theorem c1_counterexample :
    (parse_otxt_temp reportA).map (fun r => r.time) = some (PyVal.s "999".data)
    ∧ firstTok reportA (6 + 3 * (6 - 1)) = some "111".data
    ∧ PyVal.s "999".data ≠ PyVal.s "111".data
    ∧ (parse_correlator_temp reportC).map (fun r => r.time) = some (PyVal.s "555".data)
    ∧ firstTok reportC (6 + 3 * (2 - 1)) = none := by
  exact ⟨by decide, by decide, by decide, by decide, by decide⟩

/-- Witness for C1 at a concrete report: the full-standard Duration token of
`reportA` comes from line 24. -/
theorem c1_witness :
    ∃ t, firstTok reportA (6 + 3 * 6) = some t ∧ reportAResult.time = PyVal.s t :=
  (c1_duration_offset reportA).1 reportAResult parse_reportA_eq

/-- Claim C9 (amended): the trailing Duration each parser variant returns is
the raw text of the numeric token at the duration line — a Python `str`, not
a coerced number — as the last component of the returned record. -/
theorem c9_duration_textual (lines : List (List Char)) :
    (∀ r, parse_otxt_temp lines = some r →
        ∃ t, firstTok lines (6 + 3 * 6) = some t ∧ r.time = PyVal.s t
          ∧ r.time.isStr = true)
    ∧ (∀ fidsus r, parse_susceptibility_temp lines fidsus = some r →
        ∃ t, firstTok lines (6 + 3 * (susMaxIdx fidsus - 1)) = some t ∧ r.time = PyVal.s t
          ∧ r.time.isStr = true)
    ∧ (∀ r, parse_correlator_temp lines = some r →
        ∃ t, firstTok lines (6 + 3 * 2) = some t ∧ r.time = PyVal.s t
          ∧ r.time.isStr = true) := by
  refine ⟨?_, ?_, ?_⟩
  · intro r h
    obtain ⟨t2, t3, t4, t5, gs, ss, t, h2, h3, h4, h5, hg, ht, hr⟩ := parse_otxt_inv h
    exact ⟨t, ht, by rw [hr], by rw [hr]; rfl⟩
  · intro fidsus r h
    obtain ⟨t2, t3, t4, t5, gs, ss, t, h2, h3, h4, h5, hg, ht, hr⟩ :=
      parse_susceptibility_inv h
    exact ⟨t, ht, by rw [hr], by rw [hr]; rfl⟩
  · intro r h
    obtain ⟨t2, t3, t4, t5, gs, ss, t, h2, h3, h4, h5, hg, ht, hr⟩ := parse_correlator_inv h
    exact ⟨t, ht, by rw [hr], by rw [hr]; rfl⟩

/-- Counterexample to C9 as stated: on concrete well-formed reports, the
Duration component each parser returns is not a Python float (it is the token
text, a `str`). -/
theorem c9_counterexample :
    (parse_otxt_temp reportA).map (fun r => r.time.isFloat) = some false
    ∧ (parse_susceptibility_temp reportB PyArg.pyTrue).map (fun r => r.time.isFloat)
        = some false
    ∧ (parse_correlator_temp reportC).map (fun r => r.time.isFloat) = some false := by
  exact ⟨by decide, by decide, by decide⟩

/-- Witness for C9 at a concrete report. -/
theorem c9_witness :
    ∃ t, firstTok reportC (6 + 3 * 2) = some t ∧ reportCResult.time = PyVal.s t
      ∧ reportCResult.time.isStr = true :=
  (c9_duration_textual reportC).2.2 reportCResult parse_reportC_eq

/-- Claim C2 (amended): all three parsers return the emergent block as text
(Python `str`, no coercion); the result-group arrays are coerced to floats
only by the full-standard parser, while the susceptibility and correlator
parsers return them as text too. -/
theorem c2_coercion_asymmetry (lines : List (List Char)) :
    (∀ r, parse_otxt_temp lines = some r →
        r.emergent.all PyVal.isStr = true ∧ r.vals.all PyVal.isFloat = true
          ∧ r.stds.all PyVal.isFloat = true)
    ∧ (∀ fidsus r, parse_susceptibility_temp lines fidsus = some r →
        r.emergent.all PyVal.isStr = true ∧ r.vals.all PyVal.isStr = true
          ∧ r.stds.all PyVal.isStr = true)
    ∧ (∀ r, parse_correlator_temp lines = some r →
        r.emergent.all PyVal.isStr = true ∧ r.vals.all PyVal.isStr = true
          ∧ r.stds.all PyVal.isStr = true) := by
  refine ⟨?_, ?_, ?_⟩
  · intro r h
    obtain ⟨t2, t3, t4, t5, gs, ss, t, h2, h3, h4, h5, hg, ht, hr⟩ := parse_otxt_inv h
    subst hr
    refine ⟨by simp [PyVal.isStr], ?_, ?_⟩ <;>
      simp [List.all_map, Function.comp, PyVal.isFloat]
  · intro fidsus r h
    obtain ⟨t2, t3, t4, t5, gs, ss, t, h2, h3, h4, h5, hg, ht, hr⟩ :=
      parse_susceptibility_inv h
    subst hr
    refine ⟨by simp [PyVal.isStr], ?_, ?_⟩ <;>
      simp [List.all_map, Function.comp, PyVal.isStr]
  · intro r h
    obtain ⟨t2, t3, t4, t5, gs, ss, t, h2, h3, h4, h5, hg, ht, hr⟩ := parse_correlator_inv h
    subst hr
    refine ⟨by simp [PyVal.isStr], ?_, ?_⟩ <;>
      simp [List.all_map, Function.comp, PyVal.isStr]

/-- Counterexample to C2 as stated: on concrete well-formed reports, the
result-group arrays of the susceptibility and correlator parsers are not
float-valued (their entries are the raw token strings). -/
theorem c2_counterexample :
    (parse_susceptibility_temp reportB PyArg.pyTrue).map (fun r => r.vals.all PyVal.isFloat)
        = some false
    ∧ (parse_correlator_temp reportC).map (fun r => r.vals.all PyVal.isFloat) = some false
    ∧ (parse_susceptibility_temp reportB PyArg.pyTrue).map (fun r => r.stds.all PyVal.isFloat)
        = some false := by
  exact ⟨by decide, by decide, by decide⟩

/-- Witness for C2 at a concrete report. -/
theorem c2_witness :
    reportAResult.emergent.all PyVal.isStr = true
    ∧ reportAResult.vals.all PyVal.isFloat = true
    ∧ reportAResult.stds.all PyVal.isFloat = true :=
  (c2_coercion_asymmetry reportA).1 reportAResult parse_reportA_eq

/-- Claim C8 (confirmed): a parse succeeds exactly when every required line
offset holds a numeric token; hence a report truncated before a required
offset, or whose required line matches no token, makes the parser fail — with
`none` embedding the raised out-of-range / no-match `IndexError` — and no
partial record is returned.  The last conjunct identifies token absence with
out-of-range (line missing) or no-match (no token on the line). -/
theorem c8_all_or_nothing (lines : List (List Char)) :
    ((parse_otxt_temp lines).isSome = otxtOffsets.all (fun i => (firstTok lines i).isSome))
    ∧ (∀ fidsus, (parse_susceptibility_temp lines fidsus).isSome
        = (susOffsets fidsus).all (fun i => (firstTok lines i).isSome))
    ∧ ((parse_correlator_temp lines).isSome
        = corrOffsets.all (fun i => (firstTok lines i).isSome))
    ∧ (lines.length ≤ 24 → parse_otxt_temp lines = none)
    ∧ (∀ fidsus, lines.length ≤ 6 + 3 * (susMaxIdx fidsus - 1) →
        parse_susceptibility_temp lines fidsus = none)
    ∧ (lines.length ≤ 12 → parse_correlator_temp lines = none)
    ∧ (∀ i, firstTok lines i = none
        ↔ lines.get? i = none ∨ ∃ l, lines.get? i = some l ∧ findall l = []) := by
  have hnone : ∀ i, lines.length ≤ i → firstTok lines i = none := by
    intro i hi
    unfold firstTok
    rw [List.get?_eq_none.mpr hi]
    rfl
  refine ⟨parse_otxt_isSome lines, fun f => parse_susceptibility_isSome lines f,
    parse_correlator_isSome lines, ?_, ?_, ?_, fun i => firstTok_eq_none_iff lines i⟩
  · intro hlen
    rw [← Option.not_isSome_iff_eq_none, parse_otxt_isSome lines]
    simp only [List.all_eq_true, not_forall]
    exact ⟨24, by decide, by simp [hnone 24 hlen]⟩
  · intro f hlen
    rw [← Option.not_isSome_iff_eq_none, parse_susceptibility_isSome lines f]
    simp only [List.all_eq_true, not_forall]
    refine ⟨6 + 3 * (susMaxIdx f - 1), ?_, by simp [hnone _ hlen]⟩
    unfold susMaxIdx susOffsets
    cases pyEqTrue f <;> decide
  · intro hlen
    rw [← Option.not_isSome_iff_eq_none, parse_correlator_isSome lines]
    simp only [List.all_eq_true, not_forall]
    exact ⟨12, by decide, by simp [hnone 12 hlen]⟩

/-- Witness for C8 at concrete truncated reports: each parser fails with no
partial record. -/
theorem c8_witness :
    parse_otxt_temp (reportA.take 24) = none
    ∧ parse_susceptibility_temp (reportB.take 15) PyArg.pyTrue = none
    ∧ parse_correlator_temp (reportC.take 12) = none :=
  ⟨(c8_all_or_nothing (reportA.take 24)).2.2.2.1 (by decide),
   (c8_all_or_nothing (reportB.take 15)).2.2.2.2.1 PyArg.pyTrue (by decide),
   (c8_all_or_nothing (reportC.take 12)).2.2.2.2.2.1 (by decide)⟩

/-- Claim C3 (amended): the default equilibration step count of the
All-Standard-Observables builder is exactly 100 times — not 10 times — the
default of the other three builder variants, and these distinct defaults are
what each variant interpolates into its header's Tsteps line when Tsteps is
not supplied. -/
theorem c3_default_tsteps :
    all_stand_Tsteps_default = 100 * no_stand_Tsteps_default
    ∧ all_stand_Tsteps_default = 100 * hdiag_Tsteps_default
    ∧ all_stand_Tsteps_default = 100 * hoffdiag_Tsteps_default
    ∧ (∀ beta tau : List Char, ∃ a b, make_no_stand_param_fstr beta tau
        = a ++ tstepsLine (natStr no_stand_Tsteps_default) ++ b)
    ∧ (∀ beta : List Char, ∃ a b, make_hdiag_susceptibility_param_fstr beta
        = a ++ tstepsLine (natStr hdiag_Tsteps_default) ++ b)
    ∧ (∀ beta : List Char, ∃ a b, make_hoffdiag_susceptibility_param_fstr beta
        = a ++ tstepsLine (natStr hoffdiag_Tsteps_default) ++ b)
    ∧ (∀ beta tau : List Char, ∃ a b, make_all_stand_param_fstr beta tau
        = a ++ tstepsLine (natStr all_stand_Tsteps_default) ++ b) := by
  refine ⟨by decide, by decide, by decide, ?_, ?_, ?_, ?_⟩
  · intro beta tau
    refine ⟨headerDoc.data ++ "\n".data,
      '\n' :: (stepsLine (natStr 1000000) ++ '\n' :: (spmLine (natStr 10) ++ '\n' ::
        (betaLine beta ++ '\n' :: (tauLine tau ++ '\n' :: (parityLine (natStr 0)
          ++ '\n' :: make_param_file_footer PyArg.pyTrue PyArg.pyFalse))))), ?_⟩
    simp [make_no_stand_param_fstr, make_param_file_header, List.append_assoc]
  · intro beta
    refine ⟨headerDoc.data ++ "\n".data,
      '\n' :: (stepsLine (natStr 1000000) ++ '\n' :: (spmLine (natStr 10) ++ '\n' ::
        (betaLine beta ++ '\n' :: (tauLine "0.0".data ++ '\n' :: (parityLine (natStr 0)
          ++ '\n' :: (hdiagBody.data
            ++ ((if pyIsTrue PyArg.pyTrue then "#define MEASURE_HDIAG_FINT\n".data else [])
              ++ make_param_file_footer PyArg.pyTrue PyArg.pyFalse))))))), ?_⟩
    simp [make_hdiag_susceptibility_param_fstr, make_param_file_header, List.append_assoc]
  · intro beta
    refine ⟨headerDoc.data ++ "\n".data,
      '\n' :: (stepsLine (natStr 1000000) ++ '\n' :: (spmLine (natStr 10) ++ '\n' ::
        (betaLine beta ++ '\n' :: (tauLine "0.0".data ++ '\n' :: (parityLine (natStr 0)
          ++ '\n' :: (hoffdiagBody.data
            ++ ((if pyIsTrue PyArg.pyTrue then "#define MEASURE_HOFFDIAG_FINT\n".data else [])
              ++ make_param_file_footer PyArg.pyTrue PyArg.pyFalse))))))), ?_⟩
    simp [make_hoffdiag_susceptibility_param_fstr, make_param_file_header, List.append_assoc]
  · intro beta tau
    refine ⟨headerDoc.data ++ "\n".data,
      '\n' :: (stepsLine (natStr 1000000) ++ '\n' :: (spmLine (natStr 10) ++ '\n' ::
        (betaLine beta ++ '\n' :: (tauLine tau ++ '\n' :: (parityLine (natStr 0)
          ++ '\n' :: (allStandBody.data
            ++ make_param_file_footer PyArg.pyTrue PyArg.pyFalse)))))), ?_⟩
    simp [make_all_stand_param_fstr, make_param_file_header, List.append_assoc]

/-- Counterexample to C3 as stated: the All-Standard default (10000000) is 100
times the other variants' default (100000), not 10 times. -/
theorem c3_counterexample :
    all_stand_Tsteps_default ≠ 10 * no_stand_Tsteps_default
    ∧ all_stand_Tsteps_default = 100 * no_stand_Tsteps_default := by
  exact ⟨by decide, by decide⟩

/-- Claim C4 (amended): for every choice of arguments (numeric arguments
render to text that contains no 'M', as every Python number does), the
All-Standard-Observables builder's output contains exactly the 13 instrument
declarations — first and second moments of total, diagonal and off-diagonal
energy, magnetization, and correlator / energy-integral / fidelity-integral
for both channels — with no selection logic and no other MEASURE token. -/
theorem c4_instruments {beta tau : List Char} (hb : 'M' ∉ beta) (ht : 'M' ∉ tau)
    (Tsteps steps stepsPerMeasurement parity : Nat) (save restart : PyArg) :
    instruments (make_all_stand_param_fstr beta tau Tsteps steps stepsPerMeasurement parity
      save restart) = allStandInstruments
    ∧ allStandInstruments.length = 13 :=
  ⟨instruments_all_stand hb ht Tsteps steps stepsPerMeasurement parity save restart,
   by decide⟩

set_option maxRecDepth 40000 in
set_option maxHeartbeats 4000000 in
/-- Counterexample to C4 as stated: the body declares 13 instruments, not 12. -/
theorem c4_counterexample :
    (instruments (make_all_stand_param_fstr "0.5".data "0.25".data)).length = 13
    ∧ (instruments (make_all_stand_param_fstr "0.5".data "0.25".data)).length ≠ 12 := by
  have h : (instruments (make_all_stand_param_fstr "0.5".data "0.25".data)).length = 13 := by
    decide
  exact ⟨h, by rw [h]; decide⟩

/-- Witness for C4 at concrete arguments. -/
theorem c4_witness :
    instruments (make_all_stand_param_fstr "0.5".data "0.25".data) = allStandInstruments
    ∧ allStandInstruments.length = 13 :=
  c4_instruments (by decide) (by decide) all_stand_Tsteps_default 1000000 10 0
    PyArg.pyTrue PyArg.pyFalse

/-- Claim C6 (confirmed): the header interpolates its numeric fields in the
fixed order Tsteps, steps, stepsPerMeasurement, beta, tau, parity — the six
`#define` lines occur in that order inside the produced header — and when
each interpolated rendering is a complete numeric token (true of every finite
Python int and float), the Numeric Token Extractor applied to each line
recovers exactly the interpolated text, hence values equal to the original
inputs. -/
theorem c6_header_roundtrip (vT vs vm beta tau vp : List Char)
    (hT : isNumTok vT = true) (hs : isNumTok vs = true) (hm : isNumTok vm = true)
    (hb : isNumTok beta = true) (ht : isNumTok tau = true) (hp : isNumTok vp = true) :
    (headerDefLines vT vs vm beta tau vp).map (fun l => (findall l).head?)
      = [some vT, some vs, some vm, some beta, some tau, some vp]
    ∧ ∃ a, make_param_file_header beta tau vT vs vm vp
        = a ++ (tstepsLine vT ++ '\n' :: (stepsLine vs ++ '\n' :: (spmLine vm ++ '\n' ::
          (betaLine beta ++ '\n' :: (tauLine tau ++ '\n' :: (parityLine vp ++ ['\n'])))))) := by
  constructor
  · have l1 : (findall (tstepsLine vT)).head? = some vT := by
      have h : tstepsLine vT = "#define Tsteps ".data ++ vT
          ++ (' ' :: "// number of Monte-Carlo initial equilibration updates".data) := rfl
      rw [h]; exact findall_numline (by decide) hT
    have l2 : (findall (stepsLine vs)).head? = some vs := by
      have h : stepsLine vs = "#define steps ".data ++ vs
          ++ (' ' :: "// number of Monte-Carlo updates".data) := rfl
      rw [h]; exact findall_numline (by decide) hs
    have l3 : (findall (spmLine vm)).head? = some vm := by
      have h : spmLine vm = "#define stepsPerMeasurement ".data ++ vm
          ++ (' ' :: "// number of Monte-Carlo updates per measurement".data) := rfl
      rw [h]; exact findall_numline (by decide) hm
    have l4 : (findall (betaLine beta)).head? = some beta := by
      have h : betaLine beta = "#define beta ".data ++ beta
          ++ (' ' :: "// inverse temperature".data) := rfl
      rw [h]; exact findall_numline (by decide) hb
    have l5 : (findall (tauLine tau)).head? = some tau := by
      have h : tauLine tau = "#define tau ".data ++ tau
          ++ (' ' :: "//imaginary propogation time".data) := rfl
      rw [h]; exact findall_numline (by decide) ht
    have l6 : (findall (parityLine vp)).head? = some vp := by
      have h : parityLine vp = "#define parity_cond ".data ++ vp
          ++ (' ' :: "// controls parity subspace measurement ".data) := rfl
      rw [h]; exact findall_numline (by decide) hp
    simp only [headerDefLines, List.map_cons, List.map_nil, l1, l2, l3, l4, l5, l6]
  · refine ⟨headerDoc.data ++ "\n".data, ?_⟩
    simp only [make_param_file_header, List.append_assoc, List.cons_append,
      List.singleton_append]
    rfl

/-- Witness for C6 at concrete inputs. -/
theorem c6_witness :
    (headerDefLines "100000".data "1000000".data "10".data "0.5".data "0.25".data
        "0".data).map (fun l => (findall l).head?)
      = [some "100000".data, some "1000000".data, some "10".data, some "0.5".data,
         some "0.25".data, some "0".data]
    ∧ ∃ a, make_param_file_header "0.5".data "0.25".data "100000".data "1000000".data
          "10".data "0".data
        = a ++ (tstepsLine "100000".data ++ '\n' :: (stepsLine "1000000".data ++ '\n' ::
          (spmLine "10".data ++ '\n' :: (betaLine "0.5".data ++ '\n' ::
          (tauLine "0.25".data ++ '\n' :: (parityLine "0".data ++ ['\n'])))))) :=
  c6_header_roundtrip "100000".data "1000000".data "10".data "0.5".data "0.25".data "0".data
    (by decide) (by decide) (by decide) (by decide) (by decide) (by decide)

/-- Claim C10 (confirmed): the susceptibility builders emit the
fidelity-susceptibility declaration iff `fidsus` is identically the Boolean
True (the source tests `fidsus is True`), so any other value — including the
truthy integer 1 — omits the line; whereas the susceptibility parser tests
`fidsus == True` by equality, so `fidsus = 1` selects the extra result group
(max_idx 4) exactly as `True` does. -/
theorem c10_fidsus_identity_vs_equality (beta : List Char) (hb : 'M' ∉ beta)
    (fidsus : PyArg) (Tsteps steps stepsPerMeasurement parity : Nat)
    (save restart : PyArg) :
    (("MEASURE_HDIAG_FINT".data
        ∈ instruments (make_hdiag_susceptibility_param_fstr beta fidsus Tsteps steps
            stepsPerMeasurement parity save restart)) ↔ fidsus = PyArg.pyTrue)
    ∧ (("MEASURE_HOFFDIAG_FINT".data
        ∈ instruments (make_hoffdiag_susceptibility_param_fstr beta fidsus Tsteps steps
            stepsPerMeasurement parity save restart)) ↔ fidsus = PyArg.pyTrue)
    ∧ (∀ lines, parse_susceptibility_temp lines (PyArg.pyInt 1)
        = parse_susceptibility_temp lines PyArg.pyTrue)
    ∧ susMaxIdx (PyArg.pyInt 1) = 4
    ∧ pyIsTrue (PyArg.pyInt 1) = false := by
  refine ⟨?_, ?_, fun lines => rfl, rfl, rfl⟩
  · rw [instruments_hdiag hb fidsus Tsteps steps stepsPerMeasurement parity save restart]
    cases fidsus <;> simp [pyIsTrue]
  · rw [instruments_hoffdiag hb fidsus Tsteps steps stepsPerMeasurement parity save restart]
    cases fidsus <;> simp [pyIsTrue]

/-- Witness for C10 at concrete arguments: `fidsus = True` emits the
declaration, the truthy integer 1 does not. -/
theorem c10_witness :
    "MEASURE_HDIAG_FINT".data
        ∈ instruments (make_hdiag_susceptibility_param_fstr "0.5".data PyArg.pyTrue)
    ∧ "MEASURE_HDIAG_FINT".data
        ∉ instruments (make_hdiag_susceptibility_param_fstr "0.5".data (PyArg.pyInt 1)) := by
  constructor
  · exact (c10_fidsus_identity_vs_equality "0.5".data (by decide) PyArg.pyTrue
      hdiag_Tsteps_default 1000000 10 0 PyArg.pyTrue PyArg.pyFalse).1.mpr rfl
  · intro hmem
    exact absurd ((c10_fidsus_identity_vs_equality "0.5".data (by decide) (PyArg.pyInt 1)
      hdiag_Tsteps_default 1000000 10 0 PyArg.pyTrue PyArg.pyFalse).1.mp hmem) (by decide)
